import Mathlib

/-!
Shallow embedding of `src/core/module.py` (the `RigModule` lifecycle state
machine of the master-of-puppets rigging framework) together with the
external collaborator interfaces it needs (naming codec, scene-graph node
store), and proofs of the specification claims about it.

The scene graph (maya.cmds) is an external mutable store addressed by node
identifiers; it is modelled per the store interface of the spec (section 6):
node creation/rename/reparent, transform get/set, attribute get/set and
message connections.  Repository code that is not under `src/`
(`mop.metadata`, `mop.attributes`, `mop.dag`, `mop.utils.dg`, `MopNode`,
`mop.config`, `shapeshifter`) is modelled from the spec, marked in the
corresponding doc comments.
-/

/-- Modelled from the spec: the structured identity record of the naming
codec `mop.metadata`: `{base_name, side, role, description?, id?}`. -/
structure Metadata where
  base_name : String
  side : String
  role : String
  description : Option String := none
  id : Option Nat := none
deriving DecidableEq

/-- A scene node identifier.  `raw` is an arbitrary (non codec-generated)
name string; `meta` is a name produced by the naming codec from a metadata
record.  The codec is a pure bijection between records and well-formed
names (spec section 4.1), so a codec-generated name is represented by the
record itself. -/
inductive NodeName where
  | raw : String → NodeName
  | meta : Metadata → NodeName
deriving DecidableEq

/-- Modelled from the spec: `mop.metadata.name_from_metadata`, the `encode`
direction of the naming codec (pure, total). -/
def name_from_metadata (m : Metadata) : NodeName := NodeName.meta m

/-- Modelled from the spec: `mop.metadata.metadata_from_name`, the `decode`
direction of the naming codec; fails clearly on a malformed (raw) name. -/
def metadata_from_name : NodeName → Option Metadata
  | NodeName.meta m => some m
  | NodeName.raw _ => none

/-- The string form of a node name, as the host application would print it
(underscore-joined name components). Used where the source treats a node
name as a plain string (the constructor's `name` argument). -/
def nodeNameStr : NodeName → String
  | NodeName.raw s => s
  | NodeName.meta m =>
      String.intercalate "_"
        ([m.base_name, m.side, m.role] ++ m.description.toList
          ++ (m.id.map toString).toList)

/-- A 3-component vector of transform channels (translate / rotate in
degrees / scale), over the rationals. -/
structure V3 where
  x : ℚ
  y : ℚ
  z : ℚ
deriving DecidableEq

/-- A row-major 4x4 matrix over the rationals, operating on row vectors,
as `maya.api.OpenMaya.MMatrix` does; `mRC` is the entry of row `R`,
column `C`, and the translation lives in row 3. -/
structure M4 where
  m00 : ℚ
  m01 : ℚ
  m02 : ℚ
  m03 : ℚ
  m10 : ℚ
  m11 : ℚ
  m12 : ℚ
  m13 : ℚ
  m20 : ℚ
  m21 : ℚ
  m22 : ℚ
  m23 : ℚ
  m30 : ℚ
  m31 : ℚ
  m32 : ℚ
  m33 : ℚ
deriving DecidableEq

/-- The identity matrix. -/
def M4.id : M4 :=
  ⟨1,0,0,0, 0,1,0,0, 0,0,1,0, 0,0,0,1⟩

/-- Standard matrix product of row-major matrices (`MMatrix.__mul__`). -/
def M4.mul (a b : M4) : M4 where
  m00 := a.m00*b.m00 + a.m01*b.m10 + a.m02*b.m20 + a.m03*b.m30
  m01 := a.m00*b.m01 + a.m01*b.m11 + a.m02*b.m21 + a.m03*b.m31
  m02 := a.m00*b.m02 + a.m01*b.m12 + a.m02*b.m22 + a.m03*b.m32
  m03 := a.m00*b.m03 + a.m01*b.m13 + a.m02*b.m23 + a.m03*b.m33
  m10 := a.m10*b.m00 + a.m11*b.m10 + a.m12*b.m20 + a.m13*b.m30
  m11 := a.m10*b.m01 + a.m11*b.m11 + a.m12*b.m21 + a.m13*b.m31
  m12 := a.m10*b.m02 + a.m11*b.m12 + a.m12*b.m22 + a.m13*b.m32
  m13 := a.m10*b.m03 + a.m11*b.m13 + a.m12*b.m23 + a.m13*b.m33
  m20 := a.m20*b.m00 + a.m21*b.m10 + a.m22*b.m20 + a.m23*b.m30
  m21 := a.m20*b.m01 + a.m21*b.m11 + a.m22*b.m21 + a.m23*b.m31
  m22 := a.m20*b.m02 + a.m21*b.m12 + a.m22*b.m22 + a.m23*b.m32
  m23 := a.m20*b.m03 + a.m21*b.m13 + a.m22*b.m23 + a.m23*b.m33
  m30 := a.m30*b.m00 + a.m31*b.m10 + a.m32*b.m20 + a.m33*b.m30
  m31 := a.m30*b.m01 + a.m31*b.m11 + a.m32*b.m21 + a.m33*b.m31
  m32 := a.m30*b.m02 + a.m31*b.m12 + a.m32*b.m22 + a.m33*b.m32
  m33 := a.m30*b.m03 + a.m31*b.m13 + a.m32*b.m23 + a.m33*b.m33

/-- The translation component (row 3) of a row-major transform matrix. -/
def M4.translation (a : M4) : V3 := ⟨a.m30, a.m31, a.m32⟩

/-- The world reflexion matrix of `RigModule.update_mirror`
(source lines 534-539 and 553-558): `diag(-1, 1, 1, 1)`. -/
def worldReflexionMat : M4 :=
  ⟨-1, -0, -0, 0,
    0,  1,  0, 0,
    0,  0,  1, 0,
    0,  0,  0, 1⟩

/-- The local reflexion matrix of `RigModule.update_mirror`
(source lines 540-545): `diag(-1, -1, -1, 1)`. -/
def localReflexionMat : M4 :=
  ⟨-1,  0,  0, 0,
    0, -1,  0, 0,
    0,  0, -1, 0,
    0,  0,  0, 1⟩

/-- The persisted field values of a `RigModule`, stored as attributes on
its backing node (the field framework `MopNode` is modelled from the spec
as a key-value persistence layer with typed accessors; fresh nodes carry
the declared defaults). `module_mirror_ref` is the raw back-reference
field `_module_mirror`. -/
structure ModFields where
  name : String := ""
  side : String := ""
  mirror_type : String := ""
  module_mirror_ref : Option NodeName := none
  parent_joint : Option NodeName := none
  module_type : String := ""
  placement_group : Option NodeName := none
  controls_group : Option NodeName := none
  extras_group : Option NodeName := none
  owned_nodes : List NodeName := []
  deform_joints : List NodeName := []
  placement_locators : List NodeName := []
  controllers : List NodeName := []
  is_initialized : Bool := false
  is_built : Bool := false
deriving DecidableEq

/-- One node of the scene store.  `moduleConn` is the `module` message
attribute connected to the owning module's backing node; `persistentAttrs`
are the attributes of category `persistent_attribute_backup`, keyed by
`(originating node, attribute long name)` with a string value; `attrs` are
generic string attributes.  Transform channels are kept individually per
the store interface of the spec (section 6). -/
structure SceneNode where
  name : NodeName
  ntype : String := "transform"
  parent : Option NodeName := none
  moduleConn : Option NodeName := none
  fields : ModFields := {}
  persistentAttrs : List ((NodeName × String) × String) := []
  attrs : List (String × String) := []
  worldMatrix : M4 := M4.id
  translate : V3 := ⟨0, 0, 0⟩
  rotate : V3 := ⟨0, 0, 0⟩
  scale : V3 := ⟨1, 1, 1⟩
  jointOrient : V3 := ⟨0, 0, 0⟩
  visibility : Bool := true
  inheritsTransform : Bool := true
  shapeColor : String := ""
deriving DecidableEq

/-- The scene store: the node list plus the matrix-constraint records
created by `mop.dag.matrix_constraint` (modelled from the spec as
`(driver, driven)` pairs; the utility nodes of a constraint are abstracted
into the record). -/
structure Scene where
  nodes : List SceneNode := []
  constraints : List (NodeName × NodeName) := []
deriving DecidableEq

/-- `cmds.objExists` / node lookup by name (first match). -/
def findNode (s : Scene) (x : NodeName) : Option SceneNode :=
  s.nodes.find? (fun nd => nd.name = x)

/-- Whether a node of the given name exists in the store. -/
def objExists (s : Scene) (x : NodeName) : Bool :=
  (findNode s x).isSome

/-- Apply a function to every node of the given name. -/
def updateNodes (s : Scene) (x : NodeName) (g : SceneNode → SceneNode) : Scene :=
  { s with nodes := s.nodes.map (fun nd => if nd.name = x then g nd else nd) }

/-- Set a node's world transform (`cmds.xform(node, matrix=m, worldSpace=True)`). -/
def setWorldMatrixScene (s : Scene) (x : NodeName) (m : M4) : Scene :=
  updateNodes s x (fun nd => { nd with worldMatrix := m })

/-- Set a node's scale channels (`cmds.setAttr(node + '.scale', 1, 1, 1)`). -/
def setScaleScene (s : Scene) (x : NodeName) (v : V3) : Scene :=
  updateNodes s x (fun nd => { nd with scale := v })

/-- Set a node's world rotation channels (`cmds.xform(node, rotation=r, ws=True)`). -/
def setRotationScene (s : Scene) (x : NodeName) (v : V3) : Scene :=
  updateNodes s x (fun nd => { nd with rotate := v })

/-- Read a node's world transform (`cmds.getAttr(node + '.worldMatrix')`). -/
def getWorldMatrix (s : Scene) (x : NodeName) : Option M4 :=
  (findNode s x).map (fun nd => nd.worldMatrix)

/-- Read a node's world rotation (`cmds.xform(node, q=True, rotation=True, ws=True)`). -/
def getRotation (s : Scene) (x : NodeName) : Option V3 :=
  (findNode s x).map (fun nd => nd.rotate)

/-- Read a node's scale channels. -/
def getScale (s : Scene) (x : NodeName) : Option V3 :=
  (findNode s x).map (fun nd => nd.scale)

/-- The owning rig aggregate: supplies the `modules_group` and
`skeleton_group` container nodes (spec section 4.2). -/
structure Rig where
  modules_group : NodeName
  skeleton_group : NodeName
deriving DecidableEq

/-- One entry of `mop.config.default_module_placement` (modelled from the
spec: default placement matrices keyed by concrete module type). -/
structure PlacementEntry where
  deform_joints : Option (List M4) := none
  placement_locators : Option (List M4) := none
deriving DecidableEq

/-- The default-placement configuration, keyed by module class name. -/
def PlacementConfig := List (String × PlacementEntry)

instance : DecidableEq PlacementConfig := by
  unfold PlacementConfig; exact inferInstance

/-- A `RigModule` instance together with the scene it lives in: the
module's own state is just its backing node name (all persisted fields
live on the backing node); `rig` and `cfg` are the external collaborators
held by the instance. -/
structure State where
  node_name : NodeName
  scene : Scene
  rig : Rig
  cfg : PlacementConfig
deriving DecidableEq

/-- Read the module's persisted fields off its backing node
(`self.<field>.get()`); fails when the backing node is gone. -/
def getFields (st : State) : Option ModFields :=
  (findNode st.scene st.node_name).map (fun nd => nd.fields)

/-- Write the module's persisted fields on its backing node
(`self.<field>.set(...)`). -/
def setFieldsF (st : State) (g : ModFields → ModFields) : State :=
  { st with scene := updateNodes st.scene st.node_name (fun nd => { nd with fields := g nd.fields }) }

/-- Substitute a renamed node in every object-valued field (the field
framework stores object references as message connections, which the host
scene updates automatically when a node is renamed). -/
def mapFieldsRef (f : NodeName → NodeName) (g : ModFields) : ModFields :=
  { g with
    module_mirror_ref := g.module_mirror_ref.map f
    parent_joint := g.parent_joint.map f
    placement_group := g.placement_group.map f
    controls_group := g.controls_group.map f
    extras_group := g.extras_group.map f
    owned_nodes := g.owned_nodes.map f
    deform_joints := g.deform_joints.map f
    placement_locators := g.placement_locators.map f
    controllers := g.controllers.map f }

/-- Apply a name substitution to one scene node: its own name, parent
link, message connection and object fields follow; `persistentAttrs` keys
are string-encoded attribute names and deliberately do NOT follow (that is
the point of the backup rename pass in `RigModule.update`). -/
def mapNodeRef (f : NodeName → NodeName) (nd : SceneNode) : SceneNode :=
  { nd with
    name := f nd.name
    parent := nd.parent.map f
    moduleConn := nd.moduleConn.map f
    fields := mapFieldsRef f nd.fields }

/-- Apply a name substitution throughout the scene (every node and every
constraint endpoint). -/
def mapSceneRef (f : NodeName → NodeName) (s : Scene) : Scene :=
  { nodes := s.nodes.map (mapNodeRef f)
    constraints := s.constraints.map (fun c => (f c.1, f c.2)) }

/-- The substitution performed by a single `cmds.rename(old, new)`. -/
def pointSubst (old new x : NodeName) : NodeName :=
  if x = old then new else x

/-- `cmds.rename(old, new)`: rename a node, with every reference to it
following the rename. -/
def renameNode (s : Scene) (old new : NodeName) : Scene :=
  mapSceneRef (pointSubst old new) s

/-- Rename the persistent-backup attribute `oldKey` on the node `holder`
(`cmds.renameAttr(holder + '.' + old, new)`). -/
def renamePersistentAttr (s : Scene) (holder : NodeName)
    (oldKey newKey : NodeName × String) : Scene :=
  updateNodes s holder (fun nd =>
    { nd with persistentAttrs :=
        nd.persistentAttrs.map (fun q => if q.1 = oldKey then (newKey, q.2) else q) })

/-- Reparent a node (`cmds.parent(node, parent)`). -/
def setParent (st : State) (node : NodeName) (p : Option NodeName) : State :=
  { st with scene := updateNodes st.scene node (fun nd => { nd with parent := p }) }

/-- Errors raised by the embedded operations.  `duplicateName n` is the
`ValueError("A node with the name ... already exists")` of `add_node`
(the `DuplicateNameError` of the spec's error taxonomy, section 7);
`missingRef` stands for the unhandled Python failures on absent
nodes/references. -/
inductive MopError where
  | duplicateName (name : NodeName)
  | missingRef
deriving DecidableEq

/-- Lift an optional value into `Except`, failing with `missingRef`. -/
def req {α : Type} : Option α → Except MopError α
  | some a => Except.ok a
  | none => Except.error MopError.missingRef

/-- `RigModule.update_parent_joint` (source lines 248-270): delete the
constraint utility nodes currently driving the module node (found from its
`translate` channel; the two-level connection walk is abstracted into the
constraint records), then rebuild the constraint from `parent_joint`.
`mop.dag.matrix_constraint` is modelled from the spec as recording a
`(driver, driven)` constraint. -/
def updateParentJoint (st : State) : State :=
  let scene := { st.scene with
    constraints := st.scene.constraints.filter (fun c => ¬ c.2 = st.node_name) }
  match (getFields st).bind (fun f => f.parent_joint) with
  | some p => { st with scene :=
      { scene with constraints := scene.constraints ++ [(p, st.node_name)] } }
  | none => { st with scene := scene }

/-- `RigModule._update_node_name` (source lines 272-278): decode a node's
name, substitute the module's current `name`/`side` fields as
base_name/side, re-encode, and rename the node. -/
def updateNodeName (st : State) (node : NodeName) : Option (State × NodeName) := do
  let m ← metadata_from_name node
  let f ← getFields st
  let newName := name_from_metadata { m with base_name := f.name, side := f.side }
  pure ({ st with scene := renameNode st.scene node newName }, newName)

/-- `RigModule.update` (source lines 203-246): a no-op when built;
otherwise recompute the parent constraint, and if the `name`/`side` fields
differ from the identity decoded from the backing node's name, rename the
backing node, every owned node, and every `persistent_attribute_backup`
attribute prefix. -/
def update (st : State) : Option State := do
  let f ← getFields st
  if f.is_built then
    pure st
  else do
    let st := updateParentJoint st
    let md ← metadata_from_name st.node_name
    let nameChanged := ¬ f.name = md.base_name
    let sideChanged := ¬ f.side = md.side
    if nameChanged ∨ sideChanged then do
      let (st1, newName) ← updateNodeName st st.node_name
      let st1 := { st1 with node_name := newName }
      let f1 ← getFields st1
      let st2 ← f1.owned_nodes.foldlM (fun s n => do
        let r ← updateNodeName s n
        pure r.1) st1
      let bk ← findNode st2.scene st2.node_name
      let fNow := bk.fields
      let st3 ← bk.persistentAttrs.foldlM (fun (s : State) q => do
        let m2 ← metadata_from_name q.1.1
        let newNode := name_from_metadata
          { m2 with base_name := fNow.name, side := fNow.side }
        pure { s with scene :=
          renamePersistentAttr s.scene st2.node_name q.1 (newNode, q.1.2) }) st2
      pure st3
    else
      pure st

/-- Hide a node (`cmds.setAttr(node + '.visibility', False)`). -/
def hideVisibility (nd : SceneNode) : SceneNode := { nd with visibility := false }

/-- `RigModule.publish` (source lines 297-304): hide the extras group. -/
def publish (st : State) : Option State := do
  let f ← getFields st
  let eg ← f.extras_group
  pure { st with scene := updateNodes st.scene eg hideVisibility }

/-- The role-defaulting rule of `RigModule.add_node`
(`if not role: role = node_type`, source lines 328-329). -/
def addNodeRole (node_type : String) (role : Option String) : String :=
  match role with
  | none => node_type
  | some r => if r = "" then node_type else r

/-- `RigModule.add_node` (source lines 306-354): encode the module's
identity plus role/id/description into a name, fail if it exists, create
the node (`cmds.spaceLocator`/`cmds.createNode`; the locator's extra shape
node is abstracted away), tag it with the `module` message back-reference
to the backing node, append it to `owned_nodes` and return it. -/
def add_node (st : State) (node_type : String) (role : Option String)
    (object_id : Option Nat) (description : Option String)
    (parent : Option NodeName) : Except MopError (State × NodeName) := do
  let role := addNodeRole node_type role
  let f ← req (getFields st)
  let name := name_from_metadata
    { base_name := f.name, side := f.side, role := role
      description := description, id := object_id }
  if objExists st.scene name then
    throw (MopError.duplicateName name)
  else
    let st := { st with scene := { st.scene with nodes := st.scene.nodes ++
      [{ name := name, ntype := node_type, parent := parent
         moduleConn := some st.node_name }] } }
    let st := setFieldsF st (fun g => { g with owned_nodes := g.owned_nodes ++ [name] })
    pure (st, name)

/-- Zero the local transform channels of a new deform joint
(source lines 384-391): translate/rotate/jointOrient to 0, scale to 1. -/
def zeroJointTransforms (st : State) (node : NodeName) : State :=
  { st with scene := updateNodes st.scene node (fun nd =>
      { nd with translate := ⟨0,0,0⟩, rotate := ⟨0,0,0⟩
                scale := ⟨1,1,1⟩, jointOrient := ⟨0,0,0⟩ }) }

/-- Zero the local transform channels of a new placement locator
(source lines 412-419): translate/rotate to 0, scale to 1. -/
def zeroLocatorTransforms (st : State) (node : NodeName) : State :=
  { st with scene := updateNodes st.scene node (fun nd =>
      { nd with translate := ⟨0,0,0⟩, rotate := ⟨0,0,0⟩, scale := ⟨1,1,1⟩ }) }

/-- `RigModule._add_deform_joint` (source lines 356-394): default the id
to the current `deform_joints` length, create the joint via `add_node`,
parent it (explicit parent, else `parent_joint`, else the rig's
skeleton group), zero its transforms and append it to `deform_joints`. -/
def addDeformJoint (st : State) (parent : Option NodeName)
    (object_id : Option Nat) (description : Option String) :
    Except MopError (State × NodeName) := do
  let f ← req (getFields st)
  let object_id := match object_id with
    | none => some f.deform_joints.length
    | some i => some i
  let (st, j) ← add_node st "joint" (some "deform") object_id description none
  let parent := match parent with
    | some p => some p
    | none => f.parent_joint
  let parent := match parent with
    | some p => p
    | none => st.rig.skeleton_group
  let st := setParent st j (some parent)
  let st := zeroJointTransforms st j
  let st := setFieldsF st (fun g => { g with deform_joints := g.deform_joints ++ [j] })
  pure (st, j)

/-- `RigModule._add_placement_locator` (source lines 396-422): create the
locator via `add_node` (passing `object_id` through unchanged), parent it
(explicit parent, else the placement group), zero its transforms and
append it to `placement_locators`. -/
def addPlacementLocator (st : State) (description : Option String)
    (object_id : Option Nat) (parent : Option NodeName) :
    Except MopError (State × NodeName) := do
  let (st, loc) ← add_node st "locator" (some "placement") object_id description none
  let f ← req (getFields st)
  let parent := match parent with
    | some p => pure p
    | none => req f.placement_group
  let p ← parent
  let st := setParent st loc (some p)
  let st := zeroLocatorTransforms st loc
  let st := setFieldsF st (fun g =>
    { g with placement_locators := g.placement_locators ++ [loc] })
  pure (st, loc)

/-- Read a generic string attribute (`cmds.getAttr(node + '.' + a)`). -/
def getStringAttr (s : Scene) (node : NodeName) (a : String) : Option String :=
  (findNode s node).bind (fun nd => (nd.attrs.lookup a))

/-- Set a generic string attribute (`cmds.setAttr(node + '.' + a, v, type='string')`). -/
def setStringAttr (s : Scene) (node : NodeName) (a v : String) : Scene :=
  updateNodes s node (fun nd =>
    { nd with attrs := (a, v) :: nd.attrs.filter (fun q => ¬ q.1 = a) })

/-- Modelled from the spec: the fixed side-to-RGB lookup
`mop.config.side_color` used to color controllers (the concrete colors are
irrelevant to the claims). -/
def sideColor (side : String) : String :=
  if side = "L" then "blue" else if side = "R" then "red" else "yellow"

/-- Modelled from the spec: `mop.attributes.create_persistent_attribute`:
create the string attribute `longName` on `node`, restoring its value from
the module backing node's `persistent_attribute_backup` attribute keyed by
`(node, longName)` when one exists, and register that backup key on the
backing node otherwise (so the value survives node renames/rebuilds). -/
def createPersistentAttribute (st : State) (node : NodeName) (longName : String) : State :=
  let backup := (findNode st.scene st.node_name).bind (fun bk =>
    bk.persistentAttrs.lookup (node, longName))
  match backup with
  | some v => { st with scene := setStringAttr st.scene node longName v }
  | none =>
    let st := { st with scene := setStringAttr st.scene node longName "" }
    { st with scene := updateNodes st.scene st.node_name (fun bk =>
        { bk with persistentAttrs := bk.persistentAttrs ++ [((node, longName), "")] }) }

/-- `RigModule.add_control` (source lines 424-490): derive the controller
name from the target dag node's metadata with role `ctl`, create the
controller shape (`shapeshifter`, abstracted into a plain node carrying a
`shapeColor`) and rename it, color it by side, create the three persistent
string attributes, default `parent_space_data`, snap the controller onto
the dag node (`mop.dag.snap_first_to_last`, modelled as copying the world
transform), wrap it in a `buffer` parent group (`mop.dag.add_parent_group`)
and append it to `controllers` (and only to `controllers`).  A clash of
the controller name with an existing node is modelled as a failure. -/
def addControl (st : State) (dag_node : NodeName)
    (object_id : Option Nat) (description : Option String)
    (shape_type : String) :
    Except MopError (State × NodeName × NodeName) := do
  let m ← req (metadata_from_name dag_node)
  let m := match object_id with
    | some i => { m with id := some i }
    | none => m
  let m := match description with
    | some d => { m with description := some d }
    | none => m
  let m := { m with role := "ctl" }
  let ctlName := name_from_metadata m
  if objExists st.scene ctlName then
    throw (MopError.duplicateName ctlName)
  else
    let f ← req (getFields st)
    let st := { st with scene := { st.scene with nodes := st.scene.nodes ++
      [{ name := ctlName, ntype := shape_type, shapeColor := sideColor f.side }] } }
    let st := createPersistentAttribute st ctlName "shape_data"
    let st := createPersistentAttribute st ctlName "attributes_state"
    let st := createPersistentAttribute st ctlName "parent_space_data"
    let st := if (getStringAttr st.scene ctlName "parent_space_data").getD "" = "" then
        { st with scene := setStringAttr st.scene ctlName "parent_space_data" "\x7b\x7d" }
      else st
    let wm ← req (getWorldMatrix st.scene dag_node)
    let st := { st with scene := setWorldMatrixScene st.scene ctlName wm }
    let buffer := NodeName.raw (nodeNameStr ctlName ++ "_buffer")
    let st := { st with scene := { st.scene with nodes := st.scene.nodes ++
      [{ name := buffer, ntype := "transform" }] } }
    let st := setParent st ctlName (some buffer)
    let st := setFieldsF st (fun g => { g with controllers := g.controllers ++ [ctlName] })
    pure (st, ctlName, buffer)

/-- `RigModule.initialize` (source lines 142-177, the base implementation):
create the placement, controls and extras groups under the backing node,
disable `inheritsTransform` on the placement group and hide the extras
group. -/
def initModule (st : State) : Except MopError State := do
  let (st, g1) ← add_node st "transform" (some "grp") none (some "placement") (some st.node_name)
  let st := setFieldsF st (fun g => { g with placement_group := some g1 })
  let sc1 := updateNodes st.scene g1 (fun nd => { nd with inheritsTransform := false })
  let st := { st with scene := sc1 }
  let (st, g2) ← add_node st "transform" (some "grp") none (some "controls") (some st.node_name)
  let st := setFieldsF st (fun g => { g with controls_group := some g2 })
  let (st, g3) ← add_node st "transform" (some "grp") none (some "extras") (some st.node_name)
  let st := setFieldsF st (fun g => { g with extras_group := some g3 })
  let sc3 := updateNodes st.scene g3 (fun nd => { nd with visibility := false })
  let st := { st with scene := sc3 }
  pure st

/-- Apply the default placement matrices of one list of nodes: a missing
matrix (absent table or short list) is logged and skipped (source lines
184-201). -/
def applyDefaultMats (scene : Scene) (nodes : List NodeName)
    (mats : Option (List M4)) : Scene :=
  (nodes.enum).foldl (fun sc p =>
    match mats.bind (fun l => l.get? p.1) with
    | some m => setWorldMatrixScene sc p.2 m
    | none => sc) scene

/-- `RigModule.place_placement_nodes` (source lines 179-201): position the
deform joints and placement locators from the configuration entry of the
concrete module type. -/
def placePlacementNodes (st : State) : State :=
  match getFields st with
  | none => st
  | some f =>
    let entry := st.cfg.lookup f.module_type
    let scene := applyDefaultMats st.scene f.deform_joints
      (entry.bind (fun e => e.deform_joints))
    let scene := applyDefaultMats scene f.placement_locators
      (entry.bind (fun e => e.placement_locators))
    { st with scene := scene }

/-- Modelled from the spec: `MopNode.__init__`: attach to the backing node
when it exists, otherwise create it with the declared field defaults. -/
def mopNodeInit (scene : Scene) (node_name : NodeName) : Scene :=
  if objExists scene node_name then scene
  else { scene with nodes := scene.nodes ++ [{ name := node_name }] }

/-- `RigModule.__init__` (source lines 83-112): use the given name if a
node of that name exists, else encode `{name, side, 'mod'}` into a fresh
backing-node name; attach via `MopNode`; then, unless `is_initialized` is
already set: store `name`/`side`/`module_type`, parent the backing node
under the rig's modules group, wire the optional parent-joint constraint,
run `initialize`, `place_placement_nodes` and `update`, and finally set
`is_initialized`.  The class name stored in `module_type` is the base
class `RigModule` (subclasses are outside `src/`). -/
def construct (scene0 : Scene) (rig : Rig) (cfg : PlacementConfig)
    (nameArg : NodeName) (side : String)
    (parent_joint : Option NodeName) : Except MopError State := do
  let node_name := if objExists scene0 nameArg then nameArg
    else name_from_metadata
      { base_name := nodeNameStr nameArg, side := side, role := "mod" }
  let scene1 := mopNodeInit scene0 node_name
  let st : State := { node_name := node_name, scene := scene1, rig := rig, cfg := cfg }
  let f ← req (getFields st)
  if f.is_initialized then
    pure st
  else do
    let st := setFieldsF st (fun g =>
      { g with name := nodeNameStr nameArg, side := side, module_type := "RigModule" })
    let parentCur := (findNode st.scene st.node_name).bind (fun nd => nd.parent)
    let st := if ¬ parentCur = some rig.modules_group then
        setParent st st.node_name (some rig.modules_group)
      else st
    let st := match parent_joint with
      | some pj =>
        let st := setFieldsF st (fun g => { g with parent_joint := some pj })
        { st with scene := { st.scene with
            constraints := st.scene.constraints ++ [(pj, st.node_name)] } }
      | none => st
    let st ← initModule st
    let st := placePlacementNodes st
    let st ← req (update st)
    pure (setFieldsF st (fun g => { g with is_initialized := true }))

/-- ASCII lowercase of one character (Python `str.lower`, which the
source applies to the `mirror_type` enum value). -/
def lowerChar (c : Char) : Char :=
  if 'A' ≤ c ∧ c ≤ 'Z' then Char.ofNat (c.toNat + 32) else c

/-- ASCII lowercase of a string (`mirror_type.lower()`). -/
def strLower (s : String) : String := String.mk (s.data.map lowerChar)

/-- The `Behavior` branch of the transform-reflection loop of
`RigModule.update_mirror` (source lines 533-551), for the pair
`(orig_node, new_node)`: set the target's world matrix to
`local_reflexion_mat * orig_world * world_reflexion_mat` and force its
scale channels to 1. -/
def behaviorStep (sc : Scene) (p : NodeName × NodeName) : Option Scene := do
  let origMat ← getWorldMatrix sc p.1
  let newMat := M4.mul (M4.mul localReflexionMat origMat) worldReflexionMat
  let sc := setWorldMatrixScene sc p.2 newMat
  pure (setScaleScene sc p.2 ⟨1, 1, 1⟩)

/-- The `Orientation` branch of the transform-reflection loop of
`RigModule.update_mirror` (source lines 552-566): set the target's world
matrix to `orig_world * world_reflexion_mat`, force its scale channels to
1, then query the source's world rotation and re-apply it (unreflected)
onto the target. -/
def orientationStep (sc : Scene) (p : NodeName × NodeName) : Option Scene := do
  let origMat ← getWorldMatrix sc p.1
  let newMat := M4.mul origMat worldReflexionMat
  let sc := setWorldMatrixScene sc p.2 newMat
  let sc := setScaleScene sc p.2 ⟨1, 1, 1⟩
  let orient ← getRotation sc p.1
  pure (setRotationScene sc p.2 orient)

/-- One iteration of the transform-reflection loop of
`RigModule.update_mirror` (source lines 532-566): the two branch guards
compare the lowercased `mirror_type` as the source does. -/
def mirrorPairStep (mirror_type : String) (sc : Scene) (p : NodeName × NodeName) :
    Option Scene := do
  let sc ← if strLower mirror_type = "behavior" then behaviorStep sc p else pure sc
  if strLower mirror_type = "orientation" then orientationStep sc p else pure sc

/-- The transform-reflection phase of `RigModule.update_mirror`: fold
`mirrorPairStep` over the positional pairs of
`mirror.deform_joints + mirror.placement_locators` with
`self.deform_joints + self.placement_locators`. -/
def mirrorTransformPhase (mirror_type : String)
    (pairs : List (NodeName × NodeName)) (sc : Scene) : Option Scene :=
  pairs.foldlM (mirrorPairStep mirror_type) sc

/-- `RigModule.update_mirror` (source lines 506-566).  Phase 1 copies
every editable field except `name`/`side` from the mirror module when the
(mirror-translated) value is truthy — of the fields declared on
`RigModule` itself only `mirror_type` is editable besides `name`/`side`
(the generic reflective loop over arbitrary field descriptors is modelled
separately by `syncFields`) — and then runs `update`.  Phase 2 reflects
the transforms pairwise. -/
def updateMirror (st : State) : Option State := do
  let f ← getFields st
  let mirrorName ← f.module_mirror_ref
  let bkM ← findNode st.scene mirrorName
  let st := if ¬ bkM.fields.mirror_type = "" then
      setFieldsF st (fun g => { g with mirror_type := bkM.fields.mirror_type })
    else st
  let st ← update st
  let f ← getFields st
  let mName ← f.module_mirror_ref
  let bkM ← findNode st.scene mName
  let origNodes := bkM.fields.deform_joints ++ bkM.fields.placement_locators
  let newNodes := f.deform_joints ++ f.placement_locators
  let sc ← mirrorTransformPhase f.mirror_type (origNodes.zip newNodes) st.scene
  pure { st with scene := sc }

/-- The kind of a field descriptor, distinguishing the three branches of
the reflective sync loop of `update_mirror` (source lines 509-524):
`ObjectField`, `ObjectListField`, and every other (plain-valued) field. -/
inductive FieldKind where
  | object
  | objectList
  | plain
deriving DecidableEq

/-- A field descriptor as enumerated by `self.module_mirror.fields`
(modelled from the spec: the declarative field framework exposes the
ordered descriptor list with the `editable` flag of each field). -/
structure FieldDesc where
  fname : String
  kind : FieldKind
  editable : Bool
deriving DecidableEq

/-- A field value: an optional object reference, an object list, or a
plain string value. -/
inductive FieldValue where
  | obj : Option NodeName → FieldValue
  | objList : List NodeName → FieldValue
  | str : String → FieldValue
deriving DecidableEq

/-- Python truthiness of a field value (`if value:`): `None`, the empty
list and the empty string are falsy. -/
def truthy : FieldValue → Bool
  | FieldValue.obj o => o.isSome
  | FieldValue.objList l => ¬ l.isEmpty
  | FieldValue.str s => ¬ s.isEmpty

/-- Flip the left/right side marker. -/
def flipSide (s : String) : String :=
  if s = "L" then "R" else if s = "R" then "L" else s

/-- Modelled from the spec: `mop.utils.dg.find_mirror_node`, the
naming-convention-based left/right substitution on a node reference. -/
def findMirrorNode : NodeName → NodeName
  | NodeName.meta m => NodeName.meta { m with side := flipSide m.side }
  | NodeName.raw s => NodeName.raw s

/-- The value copied from the mirror source for one field descriptor:
object and object-list values are translated through the mirror-node
lookup, plain values are copied as-is (source lines 513-521). -/
def mirroredValue (mirror : String → FieldValue) (fd : FieldDesc) : FieldValue :=
  match fd.kind with
  | FieldKind.object =>
    match mirror fd.fname with
    | FieldValue.obj o => FieldValue.obj (o.map findMirrorNode)
    | v => v
  | FieldKind.objectList =>
    match mirror fd.fname with
    | FieldValue.objList l => FieldValue.objList (l.map findMirrorNode)
    | v => v
  | FieldKind.plain => mirror fd.fname

/-- One iteration of the field-sync loop of `RigModule.update_mirror`
(source lines 509-524): skip `name` and `side`, skip non-editable fields,
and assign the mirrored value only when truthy. -/
def syncStep (mirror acc : String → FieldValue) (fd : FieldDesc) :
    String → FieldValue :=
  if fd.fname = "name" ∨ fd.fname = "side" then acc
  else if fd.editable then
    (if truthy (mirroredValue mirror fd) then
      Function.update acc fd.fname (mirroredValue mirror fd)
    else acc)
  else acc

/-- The field-sync phase of `RigModule.update_mirror` over an arbitrary
descriptor list. -/
def syncFields (selfF mirror : String → FieldValue)
    (fields : List FieldDesc) : String → FieldValue :=
  fields.foldl (syncStep mirror) selfF

/-- Example rig aggregate used by the concrete witnesses below. -/
def exRig : Rig := ⟨NodeName.raw "MODULES", NodeName.raw "SKELETON"⟩

/-- Example (empty) default-placement configuration. -/
def exCfg : PlacementConfig := []

/-- Example backing-node name `arm_M_mod`. -/
def modName : NodeName := NodeName.meta ⟨"arm", "M", "mod", none, none⟩

/-- Example state of a built module (for the `update` no-op witness). -/
def exBuiltSt : State :=
  ⟨modName,
   ⟨[{ name := modName, fields := { name := "arm", side := "M", is_built := true } }], []⟩,
   exRig, exCfg⟩

/-- Example extras-group name. -/
def exExtras : NodeName := NodeName.meta ⟨"arm", "M", "grp", some "extras", none⟩

/-- Example state of a module with an extras group (for the `publish` witness). -/
def exPubSt : State :=
  ⟨modName,
   ⟨[{ name := modName
       fields := { name := "arm", side := "M", extras_group := some exExtras, is_built := true } },
     { name := exExtras }], []⟩,
   exRig, exCfg⟩

/-- The state `publish exPubSt` reaches (extras group hidden). -/
def exPubSt' : State :=
  ⟨modName,
   ⟨[{ name := modName
       fields := { name := "arm", side := "M", extras_group := some exExtras, is_built := true } },
     { name := exExtras, visibility := false }], []⟩,
   exRig, exCfg⟩

/-- Fields of the example built module. -/
def exBuiltFields : ModFields := { name := "arm", side := "M", is_built := true }

/-- Example field stores and descriptors for the field-sync witness. -/
def exSelfF : String → FieldValue :=
  fun k => if k = "parent_joint" then FieldValue.obj (some (NodeName.raw "pj")) else FieldValue.str "x"

/-- Example mirror store whose `parent_joint` value is falsy (None). -/
def exMirrorF : String → FieldValue :=
  fun k => if k = "parent_joint" then FieldValue.obj none else FieldValue.str "m"

/-- Example descriptor list. -/
def exFds : List FieldDesc :=
  [⟨"mirror_type", FieldKind.plain, true⟩, ⟨"parent_joint", FieldKind.object, true⟩]

/-- Example descriptor under test. -/
def exFd : FieldDesc := ⟨"parent_joint", FieldKind.object, true⟩

/-- The node record created by `add_node`. -/
def newOwnedNode (nm : NodeName) (node_type : String) (parent : Option NodeName)
    (owner : NodeName) : SceneNode :=
  { name := nm, ntype := node_type, parent := parent, moduleConn := some owner }

/-- Example backing node for the `add_node` witness. -/
def exAddBk : SceneNode := { name := modName, fields := { name := "arm", side := "M" } }

/-- Example state for the `add_node` witness. -/
def exAddSt : State := ⟨modName, ⟨[exAddBk], []⟩, exRig, exCfg⟩

/-- The encoded name `add_node` produces in the witness scenario. -/
def exAddNm : NodeName := NodeName.meta ⟨"arm", "M", "deform", none, some 0⟩

/-- Backing node of an existing but NOT yet initialized module. -/
def exC8bk : SceneNode :=
  { name := modName, fields := { name := "arm", side := "M", is_initialized := false } }

/-- Scene holding that node plus the rig's modules group. -/
def exC8Scene : Scene := ⟨[exC8bk, { name := NodeName.raw "MODULES" }], []⟩

/-- Backing node of an existing, initialized module. -/
def exC8bkInit : SceneNode :=
  { name := modName, fields := { name := "arm", side := "M", is_initialized := true } }

/-- Scene holding only that initialized module node. -/
def exC8SceneInit : Scene := ⟨[exC8bkInit], []⟩

/-- Source joint name for the mirror witnesses. -/
def exSrcJ : NodeName := NodeName.meta ⟨"arm", "L", "deform", none, some 0⟩

/-- Target joint name for the mirror witnesses. -/
def exTgtJ : NodeName := NodeName.meta ⟨"arm", "R", "deform", none, some 0⟩

/-- Source world matrix: identity rotation at position (5, 0, 0). -/
def exSrcWM : M4 := ⟨1,0,0,0, 0,1,0,0, 0,0,1,0, 5,0,0,1⟩

/-- Source node with world rotation (0, 30, 0) degrees. -/
def exSrcNode : SceneNode := { name := exSrcJ, worldMatrix := exSrcWM, rotate := ⟨0, 30, 0⟩ }

/-- Target node (default transform). -/
def exTgtNode : SceneNode := { name := exTgtJ }

/-- Scene for the mirror witnesses. -/
def exMirrorSc : Scene := ⟨[exSrcNode, exTgtNode], []⟩

/-- The single positional pair for the mirror witnesses. -/
def exPairs : List (NodeName × NodeName) := [(exSrcJ, exTgtJ)]

/-- The base-name/side substitution performed on a decodable node name by
`RigModule.update` when `name` or `side` changed. -/
def substBaseSide (N S : String) : NodeName → NodeName
  | NodeName.meta m => NodeName.meta { m with base_name := N, side := S }
  | NodeName.raw s => NodeName.raw s

/-- Simultaneous substitution on the names of a list. -/
def listSubst (l : List NodeName) (τ : NodeName → NodeName) (x : NodeName) : NodeName :=
  if x ∈ l then τ x else x

def exC1Md : Metadata := ⟨"arm", "M", "mod", none, none⟩

def exC1J : NodeName := NodeName.meta ⟨"arm", "M", "deform", none, some 0⟩

def exC1Ctl : NodeName := NodeName.meta ⟨"arm", "M", "ctl", none, some 0⟩

def exC1Bk : SceneNode :=
  { name := modName, fields := { name := "leg", side := "L", owned_nodes := [exC1J] },
    persistentAttrs := [((exC1Ctl, "shape_data"), "abc")] }

def exC1JN : SceneNode := { name := exC1J }

def exC1St : State := ⟨modName, ⟨[exC1Bk, exC1JN], []⟩, exRig, exCfg⟩

/-- The ownership containment claimed as an invariant: every node listed in
`deform_joints`, `placement_locators` or `controllers` also appears in
`owned_nodes`. -/
def ownershipInv (f : ModFields) : Bool :=
  decide ((∀ x ∈ f.deform_joints, x ∈ f.owned_nodes)
    ∧ (∀ x ∈ f.placement_locators, x ∈ f.owned_nodes)
    ∧ (∀ x ∈ f.controllers, x ∈ f.owned_nodes))

/-- The metadata encoded into a controller name by `add_control`
(the dag node's identity with id/description overridden when given and the
role forced to `ctl`). -/
def ctlMeta (m : Metadata) (object_id : Option Nat) (description : Option String) : Metadata :=
  let m1 := match object_id with
    | some i => { m with id := some i }
    | none => m
  let m2 := match description with
    | some d => { m1 with description := some d }
    | none => m1
  { m2 with role := "ctl" }

def exC4J : NodeName := NodeName.meta ⟨"arm", "M", "deform", none, some 0⟩

def exC4Ctl : NodeName := NodeName.meta ⟨"arm", "M", "ctl", none, some 0⟩

def exC4Bk : SceneNode := { name := modName, fields := { name := "arm", side := "M" } }

def exC4JN : SceneNode := { name := exC4J }

def exC4St : State := ⟨modName, ⟨[exC4Bk, exC4JN], []⟩, exRig, exCfg⟩

theorem codec_roundtrip (m : Metadata) :
    metadata_from_name (name_from_metadata m) = some m := rfl

theorem mapFieldsRef_comp (f g : NodeName → NodeName) (x : ModFields) :
    mapFieldsRef g (mapFieldsRef f x) = mapFieldsRef (fun y => g (f y)) x := by
  simp [mapFieldsRef, Option.map_map, List.map_map, Function.comp_def]

theorem mapNodeRef_comp (f g : NodeName → NodeName) (nd : SceneNode) :
    mapNodeRef g (mapNodeRef f nd) = mapNodeRef (fun y => g (f y)) nd := by
  simp [mapNodeRef, Option.map_map, mapFieldsRef_comp, Function.comp_def]

theorem mapSceneRef_comp (f g : NodeName → NodeName) (s : Scene) :
    mapSceneRef g (mapSceneRef f s) = mapSceneRef (fun y => g (f y)) s := by
  unfold mapSceneRef
  simp only [List.map_map]
  congr 1
  exact List.map_congr_left (fun nd _ => mapNodeRef_comp f g nd)

theorem mapFieldsRef_congr {f g : NodeName → NodeName} (h : ∀ x, f x = g x)
    (x : ModFields) : mapFieldsRef f x = mapFieldsRef g x := by
  have : f = g := funext h
  rw [this]

theorem mapSceneRef_congr {f g : NodeName → NodeName} (h : ∀ x, f x = g x)
    (s : Scene) : mapSceneRef f s = mapSceneRef g s := by
  have : f = g := funext h
  rw [this]

theorem find?_map_pres (g : SceneNode → SceneNode)
    (hg : ∀ nd, (g nd).name = nd.name) (l : List SceneNode) (y : NodeName) :
    (l.map g).find? (fun nd => nd.name = y) =
      (l.find? (fun nd => nd.name = y)).map g := by
  induction l with
  | nil => rfl
  | cons a t ih =>
    by_cases hy : a.name = y
    · simp [List.find?, hg, hy]
    · simp [List.find?, hg, hy, ih]

theorem findNode_updateNodes (s : Scene) (x : NodeName)
    (g : SceneNode → SceneNode) (hg : ∀ nd, (g nd).name = nd.name)
    (y : NodeName) :
    findNode (updateNodes s x g) y =
      (findNode s y).map (fun nd => if nd.name = x then g nd else nd) := by
  unfold findNode updateNodes
  exact find?_map_pres _ (fun nd => by by_cases h : nd.name = x <;> simp [h, hg]) s.nodes y

theorem updateNodes_updateNodes (s : Scene) (x : NodeName)
    (g1 g2 : SceneNode → SceneNode) (hg1 : ∀ nd, (g1 nd).name = nd.name) :
    updateNodes (updateNodes s x g1) x g2 =
      updateNodes s x (fun nd => g2 (g1 nd)) := by
  unfold updateNodes
  simp only [List.map_map, Scene.mk.injEq]
  refine ⟨?_, trivial⟩
  refine List.map_congr_left ?_
  intro nd _
  by_cases h : nd.name = x
  · simp [Function.comp_def, h, hg1]
  · simp [Function.comp_def, h]

/-- C2: calling `update()` on a built module performs zero mutations: the
resulting state (module fields and scene store) is exactly the input
state. -/
theorem update_noop_when_built (st : State) (f : ModFields)
    (h1 : getFields st = some f) (h2 : f.is_built = true) :
    update st = some st := by
  unfold update
  rw [h1]
  simp [h2]

theorem update_noop_when_built_witness :
    getFields exBuiltSt = some exBuiltFields ∧
    exBuiltFields.is_built = true ∧
    update exBuiltSt = some exBuiltSt := by
  refine ⟨by decide, by decide, ?_⟩
  exact update_noop_when_built exBuiltSt exBuiltFields (by decide) (by decide)

/-- C9: `publish` is idempotent (its result is a fixed point, hence two
runs leave the scene exactly as one run), and it is cosmetic-only: the
only change is the `visibility` attribute of the extras group. -/
theorem publish_idempotent_cosmetic (st st' : State)
    (h : publish st = some st') :
    publish st' = some st' ∧
    st'.node_name = st.node_name ∧ st'.rig = st.rig ∧ st'.cfg = st.cfg ∧
    st'.scene.constraints = st.scene.constraints ∧
    ∃ f eg, getFields st = some f ∧ f.extras_group = some eg ∧
      st'.scene.nodes = st.scene.nodes.map
        (fun nd => if nd.name = eg then hideVisibility nd else nd) := by
  have hpres : ∀ nd : SceneNode, (hideVisibility nd).name = nd.name := fun nd => rfl
  unfold publish at h
  cases hf : getFields st with
  | none =>
    rw [hf] at h
    simp only [Option.bind_eq_bind, Option.none_bind] at h
    exact Option.noConfusion h
  | some f =>
    rw [hf] at h
    simp only [Option.bind_eq_bind, Option.some_bind] at h
    cases heg : f.extras_group with
    | none =>
      rw [heg] at h
      simp only [Option.none_bind] at h
      exact Option.noConfusion h
    | some eg =>
      rw [heg] at h
      simp only [Option.some_bind, pure, Option.some.injEq] at h
      subst h
      have hfields' : getFields { st with scene := updateNodes st.scene eg hideVisibility } = some f := by
        show (findNode (updateNodes st.scene eg hideVisibility) st.node_name).map
          (fun nd => nd.fields) = some f
        rw [findNode_updateNodes _ _ _ hpres]
        unfold getFields at hf
        cases hfind : findNode st.scene st.node_name with
        | none => rw [hfind] at hf; exact absurd hf (by simp)
        | some bk =>
          rw [hfind] at hf
          simp only [Option.map_some'] at hf ⊢
          by_cases hb : bk.name = eg <;> simp [hb, hideVisibility, hf]
      refine ⟨?_, rfl, rfl, rfl, rfl, f, eg, rfl, heg, rfl⟩
      unfold publish
      rw [hfields']
      simp only [Option.bind_eq_bind, Option.some_bind]
      rw [heg]
      simp only [Option.some_bind, pure, Option.some.injEq]
      show ({ st with scene := updateNodes (updateNodes st.scene eg hideVisibility) eg hideVisibility } : State)
        = { st with scene := updateNodes st.scene eg hideVisibility }
      rw [updateNodes_updateNodes st.scene eg hideVisibility hideVisibility hpres]
      rfl

theorem publish_idempotent_cosmetic_witness :
    publish exPubSt = some exPubSt' ∧
    (publish exPubSt' = some exPubSt' ∧
     exPubSt'.node_name = exPubSt.node_name ∧ exPubSt'.rig = exPubSt.rig ∧
     exPubSt'.cfg = exPubSt.cfg ∧
     exPubSt'.scene.constraints = exPubSt.scene.constraints ∧
     ∃ f eg, getFields exPubSt = some f ∧ f.extras_group = some eg ∧
       exPubSt'.scene.nodes = exPubSt.scene.nodes.map
         (fun nd => if nd.name = eg then hideVisibility nd else nd)) :=
  ⟨by decide, publish_idempotent_cosmetic exPubSt exPubSt' (by decide)⟩

theorem syncStep_other (mirror acc : String → FieldValue) (fd : FieldDesc)
    (k : String) (h : ¬ fd.fname = k) : syncStep mirror acc fd k = acc k := by
  unfold syncStep
  by_cases h1 : fd.fname = "name" ∨ fd.fname = "side"
  · simp [h1]
  · by_cases h2 : fd.editable
    · by_cases h3 : truthy (mirroredValue mirror fd)
      · simp [h1, h2, h3, Function.update_noteq (fun hk => h hk.symm)]
      · simp [h1, h2, h3]
    · simp [h1, h2]

theorem syncFields_no_write (mirror : String → FieldValue)
    (t : List FieldDesc) (k : String) :
    ∀ selfF : String → FieldValue, (∀ d ∈ t, ¬ d.fname = k) →
      syncFields selfF mirror t k = selfF k := by
  induction t with
  | nil => intro selfF _; rfl
  | cons a t ih =>
    intro selfF h
    show syncFields (syncStep mirror selfF a) mirror t k = selfF k
    rw [ih (syncStep mirror selfF a) (fun d hd => h d (List.mem_cons_of_mem a hd))]
    exact syncStep_other mirror selfF a k (h a (List.mem_cons_self a t))

/-- C10: in the field-sync phase of `update_mirror`, an editable field
other than `name`/`side` whose mirrored (and mirror-node-translated) value
is falsy (`None`, empty string or empty list) is left unchanged on the
receiving module. -/
theorem sync_skips_falsy_values (fields : List FieldDesc)
    (selfF mirror : String → FieldValue) (fd : FieldDesc)
    (hmem : fd ∈ fields)
    (hnodup : (fields.map (fun d => d.fname)).Nodup)
    (hedit : fd.editable = true)
    (hname : ¬ fd.fname = "name") (hside : ¬ fd.fname = "side")
    (hfalsy : truthy (mirroredValue mirror fd) = false) :
    syncFields selfF mirror fields fd.fname = selfF fd.fname := by
  induction fields generalizing selfF with
  | nil => exact absurd hmem (List.not_mem_nil fd)
  | cons a t ih =>
    have hnodup' : (t.map (fun d => d.fname)).Nodup := (List.nodup_cons.mp hnodup).2
    have hhead : a.fname ∉ t.map (fun d => d.fname) := (List.nodup_cons.mp hnodup).1
    rcases List.mem_cons.mp hmem with heq | hmem'
    · subst heq
      show syncFields (syncStep mirror selfF fd) mirror t fd.fname = selfF fd.fname
      have hstep : syncStep mirror selfF fd = selfF := by
        unfold syncStep
        simp [hname, hside, hedit, hfalsy]
      rw [hstep]
      refine syncFields_no_write mirror t fd.fname selfF ?_
      intro d hd hdk
      exact hhead (hdk ▸ List.mem_map_of_mem (fun d => d.fname) hd)
    · show syncFields (syncStep mirror selfF a) mirror t fd.fname = selfF fd.fname
      have hne : ¬ a.fname = fd.fname := by
        intro hk
        exact hhead (hk ▸ List.mem_map_of_mem (fun d => d.fname) hmem')
      rw [ih (syncStep mirror selfF a) hmem' hnodup']
      exact syncStep_other mirror selfF a fd.fname hne

theorem sync_skips_falsy_values_witness :
    exFd ∈ exFds ∧
    (exFds.map (fun d => d.fname)).Nodup ∧
    exFd.editable = true ∧
    truthy (mirroredValue exMirrorF exFd) = false ∧
    syncFields exSelfF exMirrorF exFds exFd.fname = exSelfF exFd.fname := by
  refine ⟨by decide, by decide, by decide, by decide, ?_⟩
  exact sync_skips_falsy_values exFds exSelfF exMirrorF exFd (by decide) (by decide)
    (by decide) (by decide) (by decide) (by decide)

theorem req_some {α : Type} (a : α) : req (some a) = Except.ok a := rfl

theorem getFields_of_findNode {st : State} {bk : SceneNode}
    (hbk : findNode st.scene st.node_name = some bk) :
    getFields st = some bk.fields := by
  unfold getFields
  rw [hbk]
  rfl

theorem objExists_false_findNode {s : Scene} {x : NodeName}
    (h : objExists s x = false) : findNode s x = none := by
  unfold objExists at h
  cases hf : findNode s x with
  | none => rfl
  | some nd => rw [hf] at h; simp at h

theorem add_node_eq (st : State) (bk : SceneNode)
    (node_type : String) (role : Option String) (object_id : Option Nat)
    (description : Option String) (parent : Option NodeName)
    (hbk : findNode st.scene st.node_name = some bk) :
    add_node st node_type role object_id description parent =
      (if objExists st.scene (name_from_metadata
          ⟨bk.fields.name, bk.fields.side, addNodeRole node_type role, description, object_id⟩)
       then Except.error (MopError.duplicateName (name_from_metadata
          ⟨bk.fields.name, bk.fields.side, addNodeRole node_type role, description, object_id⟩))
       else Except.ok (setFieldsF { st with scene := { st.scene with
          nodes := st.scene.nodes ++ [newOwnedNode (name_from_metadata
            ⟨bk.fields.name, bk.fields.side, addNodeRole node_type role, description, object_id⟩)
            node_type parent st.node_name] } }
          (fun g => { g with owned_nodes := g.owned_nodes ++ [name_from_metadata
            ⟨bk.fields.name, bk.fields.side, addNodeRole node_type role, description, object_id⟩] }),
          name_from_metadata
            ⟨bk.fields.name, bk.fields.side, addNodeRole node_type role, description, object_id⟩)) := by
  have hgf : getFields st = some bk.fields := getFields_of_findNode hbk
  unfold add_node
  rw [hgf]
  rfl

theorem findNode_setFieldsF (st : State) (g : ModFields → ModFields) (y : NodeName) :
    findNode (setFieldsF st g).scene y =
      (findNode st.scene y).map
        (fun nd => if nd.name = st.node_name then { nd with fields := g nd.fields } else nd) := by
  unfold setFieldsF
  exact findNode_updateNodes st.scene st.node_name
    (fun nd => { nd with fields := g nd.fields }) (fun nd => rfl) y

/-- C3: `add_node` fails with the duplicate-name error when the encoded
name already exists (creating nothing: the error is raised before any node
creation), and otherwise creates exactly one node of the requested type
under that name, tagged with the `module` back-reference connected to the
backing node, appends it to `owned_nodes`, and returns it. -/
theorem add_node_contract (st : State) (bk : SceneNode)
    (node_type : String) (role : Option String) (object_id : Option Nat)
    (description : Option String) (parent : Option NodeName) (nm : NodeName)
    (hbk : findNode st.scene st.node_name = some bk)
    (hnm : nm = name_from_metadata
      ⟨bk.fields.name, bk.fields.side, addNodeRole node_type role, description, object_id⟩) :
    (objExists st.scene nm = true →
      add_node st node_type role object_id description parent
        = Except.error (MopError.duplicateName nm)) ∧
    (objExists st.scene nm = false →
      ∃ st', add_node st node_type role object_id description parent
          = Except.ok (st', nm) ∧
        st'.scene.nodes.length = st.scene.nodes.length + 1 ∧
        (∃ nd, findNode st'.scene nm = some nd ∧ nd.ntype = node_type ∧
          nd.moduleConn = some st.node_name ∧ nd.parent = parent ∧
          nd.fields = ({} : ModFields)) ∧
        getFields st' = some
          { bk.fields with owned_nodes := bk.fields.owned_nodes ++ [nm] } ∧
        st'.node_name = st.node_name ∧
        st'.scene.constraints = st.scene.constraints) := by
  have heq := add_node_eq st bk node_type role object_id description parent hbk
  rw [← hnm] at heq
  constructor
  · intro hex
    rw [heq, if_pos (by rw [hex])]
  · intro hex
    have hnone : findNode st.scene nm = none := objExists_false_findNode hex
    have hne : ¬ nm = st.node_name := by
      intro h
      rw [h, hbk] at hnone
      exact Option.noConfusion hnone
    have hbkname : bk.name = st.node_name := by
      have := List.find?_some hbk
      exact of_decide_eq_true this
    have h2nm : findNode { st.scene with
        nodes := st.scene.nodes ++ [newOwnedNode nm node_type parent st.node_name] } nm
        = some (newOwnedNode nm node_type parent st.node_name) := by
      unfold findNode at hnone ⊢
      simp only [List.find?_append, hnone, Option.none_or]
      simp [newOwnedNode]
    have h2bk : findNode { st.scene with
        nodes := st.scene.nodes ++ [newOwnedNode nm node_type parent st.node_name] }
        st.node_name = some bk := by
      unfold findNode at hbk ⊢
      simp only [List.find?_append, hbk]
      rfl
    rw [heq, if_neg (by rw [hex]; exact Bool.false_ne_true)]
    refine ⟨_, rfl, ?_, ?_, ?_, rfl, rfl⟩
    · show ((st.scene.nodes ++ [newOwnedNode nm node_type parent st.node_name]).map _).length
        = st.scene.nodes.length + 1
      rw [List.length_map, List.length_append]
      rfl
    · refine ⟨newOwnedNode nm node_type parent st.node_name, ?_, rfl, rfl, rfl, rfl⟩
      rw [findNode_setFieldsF]
      show ((findNode { st.scene with
        nodes := st.scene.nodes ++ [newOwnedNode nm node_type parent st.node_name] } nm).map _) = _
      rw [h2nm]
      simp only [Option.map_some']
      have hcond : ¬ (newOwnedNode nm node_type parent st.node_name).name = st.node_name := hne
      simp only [if_neg hcond]
    · unfold getFields
      rw [findNode_setFieldsF]
      show ((findNode { st.scene with
        nodes := st.scene.nodes ++ [newOwnedNode nm node_type parent st.node_name] }
        st.node_name).map _).map _ = _
      rw [h2bk]
      simp only [Option.map_some']
      have hcond : bk.name = st.node_name := hbkname
      simp only [if_pos hcond]

theorem add_node_contract_witness :
    findNode exAddSt.scene exAddSt.node_name = some exAddBk ∧
    exAddNm = name_from_metadata
      ⟨exAddBk.fields.name, exAddBk.fields.side, addNodeRole "joint" (some "deform"),
        none, some 0⟩ ∧
    ((objExists exAddSt.scene exAddNm = true →
      add_node exAddSt "joint" (some "deform") (some 0) none none
        = Except.error (MopError.duplicateName exAddNm)) ∧
    (objExists exAddSt.scene exAddNm = false →
      ∃ st', add_node exAddSt "joint" (some "deform") (some 0) none none
          = Except.ok (st', exAddNm) ∧
        st'.scene.nodes.length = exAddSt.scene.nodes.length + 1 ∧
        (∃ nd, findNode st'.scene exAddNm = some nd ∧ nd.ntype = "joint" ∧
          nd.moduleConn = some exAddSt.node_name ∧ nd.parent = none ∧
          nd.fields = ({} : ModFields)) ∧
        getFields st' = some
          { exAddBk.fields with owned_nodes := exAddBk.fields.owned_nodes ++ [exAddNm] } ∧
        st'.node_name = exAddSt.node_name ∧
        st'.scene.constraints = exAddSt.scene.constraints)) :=
  ⟨by decide, by decide,
    add_node_contract exAddSt exAddBk "joint" (some "deform") (some 0) none none exAddNm
      (by decide) (by decide)⟩

theorem Except_ok_bind {α β : Type} (a : α) (g : α → Except MopError β) :
    (Except.ok a >>= g : Except MopError β) = g a := rfl

theorem Except_error_bind {α β : Type} (e : MopError) (g : α → Except MopError β) :
    (Except.error e >>= g : Except MopError β) = Except.error e := rfl

theorem exceptBindOk {α β : Type} {e : Except MopError α}
    {g : α → Except MopError β} {r : β}
    (h : (e >>= g) = Except.ok r) : ∃ a, e = Except.ok a ∧ g a = Except.ok r := by
  cases e with
  | error err =>
    rw [Except_error_bind] at h
    exact Except.noConfusion h
  | ok a => exact ⟨a, rfl, h⟩

/-- C7 (amended): `_add_deform_joint` defaults a missing `object_id` to the
current `deform_joints` length, so deform-joint ids are dense, 0-based and
in creation order; `_add_placement_locator`, however, passes `object_id`
through unchanged, so a missing id is encoded as no id component at all
(not as the current `placement_locators` length). -/
theorem default_object_id_rule (st : State) (bk : SceneNode)
    (parent : Option NodeName) (description : Option String) (oid : Option Nat)
    (hbk : findNode st.scene st.node_name = some bk) :
    (∀ st' j, addDeformJoint st parent none description = Except.ok (st', j) →
      j = name_from_metadata ⟨bk.fields.name, bk.fields.side, "deform", description,
            some bk.fields.deform_joints.length⟩) ∧
    (∀ st' loc, addPlacementLocator st description oid parent = Except.ok (st', loc) →
      loc = name_from_metadata
        ⟨bk.fields.name, bk.fields.side, "placement", description, oid⟩) := by
  have hgf : getFields st = some bk.fields := getFields_of_findNode hbk
  constructor
  · intro st' j h
    unfold addDeformJoint at h
    rw [hgf, req_some, Except_ok_bind] at h
    obtain ⟨p, hp, hrest⟩ := exceptBindOk h
    rw [add_node_eq st bk "joint" (some "deform") (some bk.fields.deform_joints.length)
      description none hbk] at hp
    by_cases hex : objExists st.scene (name_from_metadata
        ⟨bk.fields.name, bk.fields.side, addNodeRole "joint" (some "deform"),
          description, some bk.fields.deform_joints.length⟩)
    · rw [if_pos hex] at hp
      exact Except.noConfusion hp
    · rw [if_neg hex] at hp
      have hp2 := Except.ok.inj hp
      have hsnd : p.2 = name_from_metadata
          ⟨bk.fields.name, bk.fields.side, addNodeRole "joint" (some "deform"),
            description, some bk.fields.deform_joints.length⟩ := by
        rw [← hp2]
      obtain ⟨pst, pj⟩ := p
      simp only at hsnd
      subst hsnd
      have := (Prod.mk.injEq _ _ _ _).mp (Except.ok.inj hrest)
      exact this.2.symm
  · intro st' loc h
    unfold addPlacementLocator at h
    obtain ⟨p, hp, hrest⟩ := exceptBindOk h
    rw [add_node_eq st bk "locator" (some "placement") oid description none hbk] at hp
    by_cases hex : objExists st.scene (name_from_metadata
        ⟨bk.fields.name, bk.fields.side, addNodeRole "locator" (some "placement"),
          description, oid⟩)
    · rw [if_pos hex] at hp
      exact Except.noConfusion hp
    · rw [if_neg hex] at hp
      have hp2 := Except.ok.inj hp
      have hsnd : p.2 = name_from_metadata
          ⟨bk.fields.name, bk.fields.side, addNodeRole "locator" (some "placement"),
            description, oid⟩ := by
        rw [← hp2]
      obtain ⟨pst, ploc⟩ := p
      simp only at hsnd
      subst hsnd
      obtain ⟨f2, hf2, hrest2⟩ := exceptBindOk hrest
      obtain ⟨pp, hpp, hrest3⟩ := exceptBindOk hrest2
      have := (Prod.mk.injEq _ _ _ _).mp (Except.ok.inj hrest3)
      exact this.2.symm

theorem default_object_id_rule_witness :
    findNode exAddSt.scene exAddSt.node_name = some exAddBk ∧
    ((∀ st' j, addDeformJoint exAddSt (some modName) none none = Except.ok (st', j) →
      j = name_from_metadata ⟨exAddBk.fields.name, exAddBk.fields.side, "deform", none,
            some exAddBk.fields.deform_joints.length⟩) ∧
    (∀ st' loc, addPlacementLocator exAddSt none none (some modName) = Except.ok (st', loc) →
      loc = name_from_metadata
        ⟨exAddBk.fields.name, exAddBk.fields.side, "placement", none, none⟩)) :=
  ⟨by decide, default_object_id_rule exAddSt exAddBk (some modName) none none (by decide)⟩

/-- C7 counterexample: on a module whose `placement_locators` list is
empty, `_add_placement_locator` called without an id creates a node whose
name carries no id component, not id 0 — the claim's predicted name and
the actual name differ. -/
theorem placement_locator_id_counterexample :
    (getFields exAddSt).map (fun f => f.placement_locators.length) = some 0 ∧
    (match addPlacementLocator exAddSt none none (some modName) with
     | Except.ok p => some p.2
     | Except.error _ => none) =
      some (NodeName.meta ⟨"arm", "M", "placement", none, none⟩) ∧
    ¬ (NodeName.meta ⟨"arm", "M", "placement", none, none⟩
        = NodeName.meta ⟨"arm", "M", "placement", none, some 0⟩) := by
  refine ⟨by decide, ?_, by decide⟩
  decide

/-- C8 (amended): constructing a `RigModule` with the name of an existing
node whose `is_initialized` flag is set re-attaches to that node: the
backing node is the given one and the scene (nodes, fields, constraints)
is returned completely unchanged; the guard is the `is_initialized` flag,
not node existence, so an existing node without the flag is re-initialized
instead. -/
theorem construct_reattach (scene : Scene) (rig : Rig) (cfg : PlacementConfig)
    (arg : NodeName) (side : String) (pj : Option NodeName) (bk : SceneNode)
    (hbk : findNode scene arg = some bk)
    (hinit : bk.fields.is_initialized = true) :
    construct scene rig cfg arg side pj = Except.ok ⟨arg, scene, rig, cfg⟩ := by
  have hex : objExists scene arg = true := by
    unfold objExists
    rw [hbk]
    rfl
  have hgf : getFields ⟨arg, scene, rig, cfg⟩ = some bk.fields := by
    unfold getFields
    show (findNode scene arg).map (fun nd => nd.fields) = some bk.fields
    rw [hbk]
    rfl
  unfold construct
  simp only [hex, if_true, mopNodeInit]
  rw [hgf, req_some, Except_ok_bind]
  simp only [hinit, if_true]
  rfl

/-- C8 counterexample: constructing with the name of an existing node
whose `is_initialized` flag is false runs the whole initialization: three
placement-group nodes are created (2 scene nodes become 5) and the stored
`side` field "M" is overwritten with the constructor argument "L" — so
mere node existence does not make the constructor a pure re-attach. -/
theorem construct_reattach_counterexample :
    objExists exC8Scene modName = true ∧
    ((findNode exC8Scene modName).map (fun nd => nd.fields.side)) = some "M" ∧
    (match construct exC8Scene exRig exCfg modName "L" none with
     | Except.ok st => some (st.scene.nodes.length, (getFields st).map (fun f => f.side))
     | Except.error _ => none) = some (5, some "L") := by
  refine ⟨by decide, by decide, ?_⟩
  decide

theorem construct_reattach_witness :
    findNode exC8SceneInit modName = some exC8bkInit ∧
    exC8bkInit.fields.is_initialized = true ∧
    construct exC8SceneInit exRig exCfg modName "L" none
      = Except.ok ⟨modName, exC8SceneInit, exRig, exCfg⟩ :=
  ⟨by decide, by decide,
    construct_reattach exC8SceneInit exRig exCfg modName "L" none exC8bkInit
      (by decide) (by decide)⟩

theorem findNode_name {s : Scene} {x : NodeName} {nd : SceneNode}
    (h : findNode s x = some nd) : nd.name = x := by
  unfold findNode at h
  have h2 := List.find?_some h
  exact of_decide_eq_true h2

theorem objExists_some {s : Scene} {x : NodeName} (h : objExists s x = true) :
    ∃ nd, findNode s x = some nd := by
  unfold objExists at h
  cases hf : findNode s x with
  | none => rw [hf] at h; simp at h
  | some nd => exact ⟨nd, rfl⟩

theorem findNode_updateNodes_other (s : Scene) (x : NodeName)
    (g : SceneNode → SceneNode) (hg : ∀ nd, (g nd).name = nd.name)
    (y : NodeName) (hyx : ¬ y = x) :
    findNode (updateNodes s x g) y = findNode s y := by
  rw [findNode_updateNodes s x g hg y]
  cases hf : findNode s y with
  | none => rfl
  | some nd =>
    rw [Option.map_some', if_neg (by rw [findNode_name hf]; exact hyx)]

theorem objExists_updateNodes (s : Scene) (x : NodeName)
    (g : SceneNode → SceneNode) (hg : ∀ nd, (g nd).name = nd.name)
    (y : NodeName) : objExists (updateNodes s x g) y = objExists s y := by
  unfold objExists
  rw [findNode_updateNodes s x g hg y]
  cases findNode s y <;> rfl

theorem findNode_setWM_other (s : Scene) (x : NodeName) (m : M4)
    (y : NodeName) (hyx : ¬ y = x) :
    findNode (setWorldMatrixScene s x m) y = findNode s y :=
  findNode_updateNodes_other s x (fun nd => { nd with worldMatrix := m })
    (fun _ => rfl) y hyx

theorem findNode_setScale_other (s : Scene) (x : NodeName) (v : V3)
    (y : NodeName) (hyx : ¬ y = x) :
    findNode (setScaleScene s x v) y = findNode s y :=
  findNode_updateNodes_other s x (fun nd => { nd with scale := v })
    (fun _ => rfl) y hyx

theorem findNode_setRot_other (s : Scene) (x : NodeName) (v : V3)
    (y : NodeName) (hyx : ¬ y = x) :
    findNode (setRotationScene s x v) y = findNode s y :=
  findNode_updateNodes_other s x (fun nd => { nd with rotate := v })
    (fun _ => rfl) y hyx

theorem objExists_setWM (s : Scene) (x : NodeName) (m : M4) (y : NodeName) :
    objExists (setWorldMatrixScene s x m) y = objExists s y :=
  objExists_updateNodes s x (fun nd => { nd with worldMatrix := m }) (fun _ => rfl) y

theorem objExists_setScale (s : Scene) (x : NodeName) (v : V3) (y : NodeName) :
    objExists (setScaleScene s x v) y = objExists s y :=
  objExists_updateNodes s x (fun nd => { nd with scale := v }) (fun _ => rfl) y

theorem objExists_setRot (s : Scene) (x : NodeName) (v : V3) (y : NodeName) :
    objExists (setRotationScene s x v) y = objExists s y :=
  objExists_updateNodes s x (fun nd => { nd with rotate := v }) (fun _ => rfl) y

theorem findNode_setWM_self (s : Scene) (x : NodeName) (m : M4) {nd : SceneNode}
    (h : findNode s x = some nd) :
    findNode (setWorldMatrixScene s x m) x = some { nd with worldMatrix := m } := by
  unfold setWorldMatrixScene
  rw [findNode_updateNodes s x (fun nd => { nd with worldMatrix := m }) (fun _ => rfl) x]
  rw [h, Option.map_some', if_pos (findNode_name h)]

theorem findNode_setScale_self (s : Scene) (x : NodeName) (v : V3) {nd : SceneNode}
    (h : findNode s x = some nd) :
    findNode (setScaleScene s x v) x = some { nd with scale := v } := by
  unfold setScaleScene
  rw [findNode_updateNodes s x (fun nd => { nd with scale := v }) (fun _ => rfl) x]
  rw [h, Option.map_some', if_pos (findNode_name h)]

theorem findNode_setRot_self (s : Scene) (x : NodeName) (v : V3) {nd : SceneNode}
    (h : findNode s x = some nd) :
    findNode (setRotationScene s x v) x = some { nd with rotate := v } := by
  unfold setRotationScene
  rw [findNode_updateNodes s x (fun nd => { nd with rotate := v }) (fun _ => rfl) x]
  rw [h, Option.map_some', if_pos (findNode_name h)]

theorem mirrorPairStep_behavior (sc : Scene) (p : NodeName × NodeName) :
    mirrorPairStep "Behavior" sc p = behaviorStep sc p := by
  have h1 : strLower "Behavior" = "behavior" := by decide
  have h2 : ¬ strLower "Behavior" = "orientation" := by decide
  unfold mirrorPairStep
  simp [h1, h2]

theorem mirrorPairStep_orientation (sc : Scene) (p : NodeName × NodeName) :
    mirrorPairStep "Orientation" sc p = orientationStep sc p := by
  have h1 : ¬ strLower "Orientation" = "behavior" := by decide
  have h2 : strLower "Orientation" = "orientation" := by decide
  unfold mirrorPairStep
  simp [h1, h2]

theorem behaviorStep_eq {sc : Scene} {p : NodeName × NodeName} {m : M4}
    (h : getWorldMatrix sc p.1 = some m) :
    behaviorStep sc p = some (setScaleScene (setWorldMatrixScene sc p.2
      (M4.mul (M4.mul localReflexionMat m) worldReflexionMat)) p.2 ⟨1, 1, 1⟩) := by
  unfold behaviorStep
  rw [h]
  rfl

theorem orientationStep_eq {sc : Scene} {p : NodeName × NodeName} {m : M4} {r : V3}
    (hm : getWorldMatrix sc p.1 = some m)
    (hr : getRotation (setScaleScene (setWorldMatrixScene sc p.2
      (M4.mul m worldReflexionMat)) p.2 ⟨1, 1, 1⟩) p.1 = some r) :
    orientationStep sc p = some (setRotationScene (setScaleScene
      (setWorldMatrixScene sc p.2 (M4.mul m worldReflexionMat)) p.2 ⟨1, 1, 1⟩) p.2 r) := by
  unfold orientationStep
  rw [hm]
  show (getRotation (setScaleScene (setWorldMatrixScene sc p.2
      (M4.mul m worldReflexionMat)) p.2 ⟨1, 1, 1⟩) p.1).bind _ = _
  rw [hr]
  rfl

theorem mirrorPairStep_exists (mt : String) (sc : Scene) (p : NodeName × NodeName)
    (h : objExists sc p.1 = true) :
    ∃ sc1, mirrorPairStep mt sc p = some sc1 ∧
      (∀ y, objExists sc1 y = objExists sc y) ∧
      (∀ y, ¬ y = p.2 → findNode sc1 y = findNode sc y) := by
  obtain ⟨nd1, hnd1⟩ := objExists_some h
  unfold mirrorPairStep
  by_cases c1 : strLower mt = "behavior"
  · rw [if_pos c1]
    have hm : getWorldMatrix sc p.1 = some nd1.worldMatrix := by
      unfold getWorldMatrix
      rw [hnd1]
      rfl
    rw [behaviorStep_eq hm]
    by_cases c2 : strLower mt = "orientation"
    · exfalso
      have hboth : ("behavior" : String) = "orientation" := by rw [← c1, c2]
      exact absurd hboth (by decide)
    · simp only [Option.bind_eq_bind, Option.some_bind, if_neg c2]
      refine ⟨_, rfl, ?_, ?_⟩
      · intro y
        rw [objExists_setScale, objExists_setWM]
      · intro y hy
        rw [findNode_setScale_other _ _ _ _ hy, findNode_setWM_other _ _ _ _ hy]
  · rw [if_neg c1]
    simp only [Option.bind_eq_bind, Option.pure_def, Option.some_bind]
    by_cases c2 : strLower mt = "orientation"
    · rw [if_pos c2]
      have hm : getWorldMatrix sc p.1 = some nd1.worldMatrix := by
        unfold getWorldMatrix
        rw [hnd1]
        rfl
      by_cases hpp : p.1 = p.2
      · -- degenerate self-pair: the rotation query still succeeds
        have hex2 : objExists (setScaleScene (setWorldMatrixScene sc p.2
            (M4.mul nd1.worldMatrix worldReflexionMat)) p.2 ⟨1, 1, 1⟩) p.1 = true := by
          rw [objExists_setScale, objExists_setWM]
          exact h
        obtain ⟨nd2, hnd2⟩ := objExists_some hex2
        have hr : getRotation (setScaleScene (setWorldMatrixScene sc p.2
            (M4.mul nd1.worldMatrix worldReflexionMat)) p.2 ⟨1, 1, 1⟩) p.1
            = some nd2.rotate := by
          unfold getRotation
          rw [hnd2]
          rfl
        rw [orientationStep_eq hm hr]
        refine ⟨_, rfl, ?_, ?_⟩
        · intro y
          rw [objExists_setRot, objExists_setScale, objExists_setWM]
        · intro y hy
          rw [findNode_setRot_other _ _ _ _ hy, findNode_setScale_other _ _ _ _ hy,
            findNode_setWM_other _ _ _ _ hy]
      · have hr : getRotation (setScaleScene (setWorldMatrixScene sc p.2
            (M4.mul nd1.worldMatrix worldReflexionMat)) p.2 ⟨1, 1, 1⟩) p.1
            = some nd1.rotate := by
          unfold getRotation
          rw [findNode_setScale_other _ _ _ _ hpp, findNode_setWM_other _ _ _ _ hpp, hnd1]
          rfl
        rw [orientationStep_eq hm hr]
        refine ⟨_, rfl, ?_, ?_⟩
        · intro y
          rw [objExists_setRot, objExists_setScale, objExists_setWM]
        · intro y hy
          rw [findNode_setRot_other _ _ _ _ hy, findNode_setScale_other _ _ _ _ hy,
            findNode_setWM_other _ _ _ _ hy]
    · rw [if_neg c2]
      exact ⟨sc, rfl, fun y => rfl, fun y _ => rfl⟩

theorem mirrorPhase_fold (mt : String) :
    ∀ (pairs : List (NodeName × NodeName)) (sc : Scene),
      (∀ p ∈ pairs, objExists sc p.1 = true) →
      ∃ sc', mirrorTransformPhase mt pairs sc = some sc' ∧
        (∀ y, objExists sc' y = objExists sc y) ∧
        (∀ y, y ∉ pairs.map (fun p => p.2) → findNode sc' y = findNode sc y) := by
  intro pairs
  induction pairs with
  | nil => exact fun sc _ => ⟨sc, rfl, fun y => rfl, fun y _ => rfl⟩
  | cons q t ih =>
    intro sc hsrcs
    obtain ⟨sc1, hstep, hobj1, hframe1⟩ :=
      mirrorPairStep_exists mt sc q (hsrcs q (List.mem_cons_self q t))
    obtain ⟨sc', hfold, hobj2, hframe2⟩ := ih sc1
      (fun p hp => (hobj1 p.1).trans (hsrcs p (List.mem_cons_of_mem q hp)))
    refine ⟨sc', ?_, ?_, ?_⟩
    · show (q :: t).foldlM (mirrorPairStep mt) sc = some sc'
      rw [List.foldlM_cons, hstep]
      exact hfold
    · intro y
      rw [hobj2 y, hobj1 y]
    · intro y hy
      have hyq : ¬ y = q.2 := by
        intro hcon
        exact hy (by rw [hcon]; exact List.mem_cons_self _ _)
      have hyt : y ∉ t.map (fun p => p.2) := by
        intro hcon
        exact hy (List.mem_cons_of_mem _ hcon)
      rw [hframe2 y hyt, hframe1 y hyq]

/-- C5: in `update_mirror` with `mirror_type` set to `Behavior`, for every
positionally corresponding source/target pair of the concatenated
deform-joint and placement-locator lists, the transform phase sets the
target's world matrix to
`local_reflexion_mat * orig_world * world_reflexion_mat` (with
`world_reflexion_mat = diag(-1,1,1,1)` and
`local_reflexion_mat = diag(-1,-1,-1,1)`, row-major) and then forces the
target's scale channels to `(1, 1, 1)`. -/
theorem update_mirror_behavior_reflection
    (pairs : List (NodeName × NodeName)) (sc : Scene) (o n : NodeName)
    (origMat : M4) (nd : SceneNode)
    (hmem : (o, n) ∈ pairs)
    (hnodup : (pairs.map (fun p => p.2)).Nodup)
    (hdisj : ∀ p ∈ pairs, p.1 ∉ pairs.map (fun q => q.2))
    (hsrcs : ∀ p ∈ pairs, objExists sc p.1 = true)
    (horig : getWorldMatrix sc o = some origMat)
    (htgt : findNode sc n = some nd) :
    ∃ sc', mirrorTransformPhase "Behavior" pairs sc = some sc' ∧
      findNode sc' n = some { nd with
        worldMatrix := M4.mul (M4.mul localReflexionMat origMat) worldReflexionMat,
        scale := ⟨1, 1, 1⟩ } ∧
      getWorldMatrix sc' n
        = some (M4.mul (M4.mul localReflexionMat origMat) worldReflexionMat) ∧
      getScale sc' n = some ⟨1, 1, 1⟩ := by
  induction pairs generalizing sc with
  | nil => exact absurd hmem (List.not_mem_nil _)
  | cons q t ih =>
    obtain ⟨qo, qn⟩ := q
    have hq1 : objExists sc qo = true := hsrcs (qo, qn) (List.mem_cons_self _ _)
    obtain ⟨nd1, hnd1⟩ := objExists_some hq1
    have hm : getWorldMatrix sc qo = some nd1.worldMatrix := by
      unfold getWorldMatrix
      rw [hnd1]
      rfl
    have hstep : mirrorPairStep "Behavior" sc (qo, qn)
        = some (setScaleScene (setWorldMatrixScene sc qn
            (M4.mul (M4.mul localReflexionMat nd1.worldMatrix) worldReflexionMat))
            qn ⟨1, 1, 1⟩) := by
      rw [mirrorPairStep_behavior]
      exact behaviorStep_eq hm
    rcases List.mem_cons.mp hmem with heq | hmem'
    · -- (o, n) is the head pair
      injection heq with ho hn
      subst ho
      subst hn
      have hndm : nd1.worldMatrix = origMat := by
        rw [hm] at horig
        exact Option.some.inj horig
      have hnotin : n ∉ t.map (fun p => p.2) := (List.nodup_cons.mp hnodup).1
      have htgt1 : findNode (setScaleScene (setWorldMatrixScene sc n
          (M4.mul (M4.mul localReflexionMat nd1.worldMatrix) worldReflexionMat))
          n ⟨1, 1, 1⟩) n = some { nd with
            worldMatrix := M4.mul (M4.mul localReflexionMat origMat) worldReflexionMat,
            scale := ⟨1, 1, 1⟩ } := by
        rw [hndm]
        have h1 := findNode_setWM_self sc n
          (M4.mul (M4.mul localReflexionMat origMat) worldReflexionMat) htgt
        exact findNode_setScale_self _ n ⟨1, 1, 1⟩ h1
      obtain ⟨sc', hfold, hobj2, hframe2⟩ := mirrorPhase_fold "Behavior" t
        (setScaleScene (setWorldMatrixScene sc n
          (M4.mul (M4.mul localReflexionMat nd1.worldMatrix) worldReflexionMat))
          n ⟨1, 1, 1⟩)
        (fun p hp => by
          rw [objExists_setScale, objExists_setWM]
          exact hsrcs p (List.mem_cons_of_mem _ hp))
      have hfind : findNode sc' n = some { nd with
          worldMatrix := M4.mul (M4.mul localReflexionMat origMat) worldReflexionMat,
          scale := ⟨1, 1, 1⟩ } := by
        rw [hframe2 n hnotin]
        exact htgt1
      refine ⟨sc', ?_, hfind, ?_, ?_⟩
      · show ((o, n) :: t).foldlM (mirrorPairStep "Behavior") sc = some sc'
        rw [List.foldlM_cons, hstep]
        exact hfold
      · unfold getWorldMatrix
        rw [hfind]
        rfl
      · unfold getScale
        rw [hfind]
        rfl
    · -- (o, n) is in the tail
      have hon : ¬ o = qn := by
        intro hcon
        have := hdisj (o, n) hmem
        rw [hcon] at this
        exact this (List.mem_cons_self _ _)
      have hnq : ¬ n = qn := by
        intro hcon
        have h1 : qn ∉ t.map (fun p => p.2) := (List.nodup_cons.mp hnodup).1
        rw [← hcon] at h1
        exact h1 (List.mem_map_of_mem (fun p => p.2) hmem')
      have horig1 : getWorldMatrix (setScaleScene (setWorldMatrixScene sc qn
          (M4.mul (M4.mul localReflexionMat nd1.worldMatrix) worldReflexionMat))
          qn ⟨1, 1, 1⟩) o = some origMat := by
        unfold getWorldMatrix at horig ⊢
        rw [findNode_setScale_other _ _ _ _ hon, findNode_setWM_other _ _ _ _ hon]
        exact horig
      have htgt1 : findNode (setScaleScene (setWorldMatrixScene sc qn
          (M4.mul (M4.mul localReflexionMat nd1.worldMatrix) worldReflexionMat))
          qn ⟨1, 1, 1⟩) n = some nd := by
        rw [findNode_setScale_other _ _ _ _ hnq, findNode_setWM_other _ _ _ _ hnq]
        exact htgt
      obtain ⟨sc', hfold, h2, h3, h4⟩ := ih _ hmem'
        (List.nodup_cons.mp hnodup).2
        (fun p hp hcon => hdisj p (List.mem_cons_of_mem _ hp)
          (List.mem_cons_of_mem _ hcon))
        (fun p hp => by
          rw [objExists_setScale, objExists_setWM]
          exact hsrcs p (List.mem_cons_of_mem _ hp))
        horig1 htgt1
      refine ⟨sc', ?_, h2, h3, h4⟩
      show ((qo, qn) :: t).foldlM (mirrorPairStep "Behavior") sc = some sc'
      rw [List.foldlM_cons, hstep]
      exact hfold

theorem mul_worldReflexion_translation (m : M4) :
    (M4.mul m worldReflexionMat).translation = ⟨-m.m30, m.m31, m.m32⟩ := by
  show V3.mk _ _ _ = V3.mk _ _ _
  simp only [M4.mul, M4.translation, worldReflexionMat, V3.mk.injEq]
  refine ⟨by ring, by ring, by ring⟩

/-- C6: in `update_mirror` with `mirror_type` set to `Orientation`, for
every positionally corresponding source/target pair, the transform phase
sets the target's world matrix to `orig_world * world_reflexion_mat`
(`world_reflexion_mat = diag(-1,1,1,1)`), forces the target's scale
channels to `(1, 1, 1)`, and then re-applies the source's original
(unreflected) world rotation to the target; the target's position is the
source's position with the x coordinate negated, so a source at
`(5, 0, 0)` with rotation `(0, 30, 0)` yields a target at `(-5, 0, 0)`
with rotation `(0, 30, 0)` and scale `(1, 1, 1)` (see the witness). -/
theorem update_mirror_orientation_reflection
    (pairs : List (NodeName × NodeName)) (sc : Scene) (o n : NodeName)
    (origMat : M4) (origRot : V3) (nd : SceneNode)
    (hmem : (o, n) ∈ pairs)
    (hnodup : (pairs.map (fun p => p.2)).Nodup)
    (hdisj : ∀ p ∈ pairs, p.1 ∉ pairs.map (fun q => q.2))
    (hsrcs : ∀ p ∈ pairs, objExists sc p.1 = true)
    (horig : getWorldMatrix sc o = some origMat)
    (hrot : getRotation sc o = some origRot)
    (htgt : findNode sc n = some nd) :
    ∃ sc', mirrorTransformPhase "Orientation" pairs sc = some sc' ∧
      findNode sc' n = some { nd with
        worldMatrix := M4.mul origMat worldReflexionMat,
        scale := ⟨1, 1, 1⟩, rotate := origRot } ∧
      getWorldMatrix sc' n = some (M4.mul origMat worldReflexionMat) ∧
      getScale sc' n = some ⟨1, 1, 1⟩ ∧
      getRotation sc' n = some origRot ∧
      (M4.mul origMat worldReflexionMat).translation
        = ⟨-origMat.m30, origMat.m31, origMat.m32⟩ := by
  induction pairs generalizing sc with
  | nil => exact absurd hmem (List.not_mem_nil _)
  | cons q t ih =>
    obtain ⟨qo, qn⟩ := q
    have hq1 : objExists sc qo = true := hsrcs (qo, qn) (List.mem_cons_self _ _)
    obtain ⟨nd1, hnd1⟩ := objExists_some hq1
    have hm : getWorldMatrix sc qo = some nd1.worldMatrix := by
      unfold getWorldMatrix
      rw [hnd1]
      rfl
    rcases List.mem_cons.mp hmem with heq | hmem'
    · -- (o, n) is the head pair
      injection heq with ho hn
      subst ho
      subst hn
      have hon : ¬ o = n := by
        intro hcon
        have := hdisj (o, n) (List.mem_cons_self _ _)
        rw [hcon] at this
        exact this (List.mem_cons_self _ _)
      have hndm : nd1.worldMatrix = origMat := by
        rw [hm] at horig
        exact Option.some.inj horig
      have hr : getRotation (setScaleScene (setWorldMatrixScene sc n
          (M4.mul nd1.worldMatrix worldReflexionMat)) n ⟨1, 1, 1⟩) o
          = some origRot := by
        unfold getRotation at hrot ⊢
        rw [findNode_setScale_other _ _ _ _ hon, findNode_setWM_other _ _ _ _ hon]
        exact hrot
      have hstep : mirrorPairStep "Orientation" sc (o, n)
          = some (setRotationScene (setScaleScene (setWorldMatrixScene sc n
              (M4.mul nd1.worldMatrix worldReflexionMat)) n ⟨1, 1, 1⟩) n origRot) := by
        rw [mirrorPairStep_orientation]
        exact orientationStep_eq hm hr
      have hnotin : n ∉ t.map (fun p => p.2) := (List.nodup_cons.mp hnodup).1
      have htgt1 : findNode (setRotationScene (setScaleScene (setWorldMatrixScene sc n
          (M4.mul nd1.worldMatrix worldReflexionMat)) n ⟨1, 1, 1⟩) n origRot) n
          = some { nd with
            worldMatrix := M4.mul origMat worldReflexionMat,
            scale := ⟨1, 1, 1⟩, rotate := origRot } := by
        rw [hndm]
        have h1 := findNode_setWM_self sc n (M4.mul origMat worldReflexionMat) htgt
        have h2 := findNode_setScale_self _ n ⟨1, 1, 1⟩ h1
        exact findNode_setRot_self _ n origRot h2
      obtain ⟨sc', hfold, hobj2, hframe2⟩ := mirrorPhase_fold "Orientation" t
        (setRotationScene (setScaleScene (setWorldMatrixScene sc n
          (M4.mul nd1.worldMatrix worldReflexionMat)) n ⟨1, 1, 1⟩) n origRot)
        (fun p hp => by
          rw [objExists_setRot, objExists_setScale, objExists_setWM]
          exact hsrcs p (List.mem_cons_of_mem _ hp))
      have hfind : findNode sc' n = some { nd with
          worldMatrix := M4.mul origMat worldReflexionMat,
          scale := ⟨1, 1, 1⟩, rotate := origRot } := by
        rw [hframe2 n hnotin]
        exact htgt1
      refine ⟨sc', ?_, hfind, ?_, ?_, ?_, mul_worldReflexion_translation origMat⟩
      · show ((o, n) :: t).foldlM (mirrorPairStep "Orientation") sc = some sc'
        rw [List.foldlM_cons, hstep]
        exact hfold
      · unfold getWorldMatrix
        rw [hfind]
        rfl
      · unfold getScale
        rw [hfind]
        rfl
      · unfold getRotation
        rw [hfind]
        rfl
    · -- (o, n) is in the tail
      obtain ⟨scMid, hstep, hobj1, hframe1⟩ :=
        mirrorPairStep_exists "Orientation" sc (qo, qn) hq1
      have hon : ¬ o = qn := by
        intro hcon
        have := hdisj (o, n) hmem
        rw [hcon] at this
        exact this (List.mem_cons_self _ _)
      have hnq : ¬ n = qn := by
        intro hcon
        have h1 : qn ∉ t.map (fun p => p.2) := (List.nodup_cons.mp hnodup).1
        rw [← hcon] at h1
        exact h1 (List.mem_map_of_mem (fun p => p.2) hmem')
      have horig1 : getWorldMatrix scMid o = some origMat := by
        unfold getWorldMatrix at horig ⊢
        rw [hframe1 o hon]
        exact horig
      have hrot1 : getRotation scMid o = some origRot := by
        unfold getRotation at hrot ⊢
        rw [hframe1 o hon]
        exact hrot
      have htgt1 : findNode scMid n = some nd := by
        rw [hframe1 n hnq]
        exact htgt
      obtain ⟨sc', hfold, h2, h3, h4, h5, h6⟩ := ih _ hmem'
        (List.nodup_cons.mp hnodup).2
        (fun p hp hcon => hdisj p (List.mem_cons_of_mem _ hp)
          (List.mem_cons_of_mem _ hcon))
        (fun p hp => by
          rw [hobj1 p.1]
          exact hsrcs p (List.mem_cons_of_mem _ hp))
        horig1 hrot1 htgt1
      refine ⟨sc', ?_, h2, h3, h4, h5, h6⟩
      show ((qo, qn) :: t).foldlM (mirrorPairStep "Orientation") sc = some sc'
      rw [List.foldlM_cons, hstep]
      exact hfold

theorem update_mirror_behavior_reflection_witness :
    (exSrcJ, exTgtJ) ∈ exPairs ∧
    getWorldMatrix exMirrorSc exSrcJ = some exSrcWM ∧
    (∃ sc', mirrorTransformPhase "Behavior" exPairs exMirrorSc = some sc' ∧
      findNode sc' exTgtJ = some { exTgtNode with
        worldMatrix := M4.mul (M4.mul localReflexionMat exSrcWM) worldReflexionMat,
        scale := ⟨1, 1, 1⟩ } ∧
      getWorldMatrix sc' exTgtJ
        = some (M4.mul (M4.mul localReflexionMat exSrcWM) worldReflexionMat) ∧
      getScale sc' exTgtJ = some ⟨1, 1, 1⟩) :=
  ⟨by decide, by decide,
    update_mirror_behavior_reflection exPairs exMirrorSc exSrcJ exTgtJ exSrcWM exTgtNode
      (by decide) (by decide) (by decide) (by decide) (by decide) (by decide)⟩

theorem update_mirror_orientation_reflection_witness :
    (exSrcJ, exTgtJ) ∈ exPairs ∧
    getWorldMatrix exMirrorSc exSrcJ = some exSrcWM ∧
    exSrcWM.translation = ⟨5, 0, 0⟩ ∧
    getRotation exMirrorSc exSrcJ = some ⟨0, 30, 0⟩ ∧
    (∃ sc', mirrorTransformPhase "Orientation" exPairs exMirrorSc = some sc' ∧
      findNode sc' exTgtJ = some { exTgtNode with
        worldMatrix := M4.mul exSrcWM worldReflexionMat,
        scale := ⟨1, 1, 1⟩, rotate := ⟨0, 30, 0⟩ } ∧
      getWorldMatrix sc' exTgtJ = some (M4.mul exSrcWM worldReflexionMat) ∧
      getScale sc' exTgtJ = some ⟨1, 1, 1⟩ ∧
      getRotation sc' exTgtJ = some ⟨0, 30, 0⟩ ∧
      (M4.mul exSrcWM worldReflexionMat).translation
        = ⟨-exSrcWM.m30, exSrcWM.m31, exSrcWM.m32⟩) ∧
    (⟨-exSrcWM.m30, exSrcWM.m31, exSrcWM.m32⟩ : V3) = ⟨-5, 0, 0⟩ :=
  ⟨by decide, by decide, by decide, by decide,
    update_mirror_orientation_reflection exPairs exMirrorSc exSrcJ exTgtJ exSrcWM
      ⟨0, 30, 0⟩ exTgtNode
      (by decide) (by decide) (by decide) (by decide) (by decide) (by decide) (by decide),
    rfl⟩

theorem updateParentJoint_shape (st : State) :
    ∃ cs, updateParentJoint st
      = { st with scene := { st.scene with constraints := cs } } := by
  unfold updateParentJoint
  cases (getFields st).bind (fun f => f.parent_joint) with
  | none => exact ⟨_, rfl⟩
  | some p => exact ⟨_, rfl⟩

theorem findNode_mapSceneRef_of (σ : NodeName → NodeName) (s : Scene) (x : NodeName)
    (h : ∀ y, σ y = x ↔ y = x) :
    findNode (mapSceneRef σ s) x = (findNode s x).map (mapNodeRef σ) := by
  unfold findNode mapSceneRef
  show List.find? _ (s.nodes.map (mapNodeRef σ)) = _
  rw [List.find?_map]
  have hp : ((fun nd => decide (nd.name = x)) ∘ mapNodeRef σ)
      = (fun nd : SceneNode => decide (nd.name = x)) := by
    funext nd
    show decide (σ nd.name = x) = decide (nd.name = x)
    exact decide_eq_decide.mpr (h nd.name)
  rw [hp]

theorem objExists_mapSceneRef_iff (σ : NodeName → NodeName) (s : Scene) (y : NodeName) :
    objExists (mapSceneRef σ s) y = true ↔ ∃ nd ∈ s.nodes, σ nd.name = y := by
  unfold objExists findNode mapSceneRef
  show (List.find? _ (s.nodes.map (mapNodeRef σ))).isSome = true ↔ _
  rw [List.find?_isSome]
  constructor
  · rintro ⟨nd', hmem, hp⟩
    obtain ⟨nd, hnd, rfl⟩ := List.mem_map.mp hmem
    exact ⟨nd, hnd, of_decide_eq_true hp⟩
  · rintro ⟨nd, hnd, hname⟩
    exact ⟨mapNodeRef σ nd, List.mem_map_of_mem _ hnd, decide_eq_true hname⟩

theorem updateNodeName_eq (st : State) (bk : SceneNode) (n : NodeName) (m : Metadata)
    (hbk : findNode st.scene st.node_name = some bk)
    (hm : n = NodeName.meta m) :
    updateNodeName st n = some
      ({ st with scene := renameNode st.scene n (substBaseSide bk.fields.name bk.fields.side n) },
        substBaseSide bk.fields.name bk.fields.side n) := by
  subst hm
  unfold updateNodeName
  rw [getFields_of_findNode hbk]
  rfl

theorem mapFieldsRef_id (g : ModFields) : mapFieldsRef (fun x => x) g = g := by
  simp [mapFieldsRef]

theorem mapNodeRef_id (nd : SceneNode) : mapNodeRef (fun x => x) nd = nd := by
  simp [mapNodeRef, mapFieldsRef_id]

theorem mapSceneRef_id (s : Scene) : mapSceneRef (fun x => x) s = s := by
  unfold mapSceneRef
  have h1 : s.nodes.map (mapNodeRef (fun x => x)) = s.nodes := by
    calc s.nodes.map (mapNodeRef (fun x => x))
        = s.nodes.map (fun nd => nd) := List.map_congr_left (fun nd _ => mapNodeRef_id nd)
      _ = s.nodes := List.map_id' s.nodes
  have h2 : s.constraints.map (fun c => ((fun x => x) c.1, (fun x => x) c.2))
      = s.constraints := by
    calc s.constraints.map (fun c => ((fun x => x) c.1, (fun x => x) c.2))
        = s.constraints.map (fun c => c) := List.map_congr_left (fun c _ => rfl)
      _ = s.constraints := List.map_id' s.constraints
  rw [h1, h2]

theorem listSubst_nil (τ : NodeName → NodeName) (x : NodeName) :
    listSubst [] τ x = x := by
  simp [listSubst]

theorem listSubst_cons_point (n : NodeName) (t : List NodeName)
    (τ : NodeName → NodeName) (hτ : τ n ∉ t) (x : NodeName) :
    listSubst t τ (pointSubst n (τ n) x) = listSubst (n :: t) τ x := by
  unfold listSubst pointSubst
  by_cases hx : x = n
  · subst hx
    simp [hτ]
  · simp only [if_neg hx]
    by_cases hxt : x ∈ t
    · rw [if_pos hxt, if_pos (List.mem_cons_of_mem n hxt)]
    · rw [if_neg hxt, if_neg (fun hc => by
        rcases List.mem_cons.mp hc with h1 | h2
        · exact hx h1
        · exact hxt h2)]

theorem ownedFold_eq (N S : String) :
    ∀ (l : List NodeName) (st : State) (bk : SceneNode),
      findNode st.scene st.node_name = some bk →
      bk.fields.name = N → bk.fields.side = S →
      (∀ x ∈ l, ∃ m, x = NodeName.meta m ∧ ¬(m.base_name = N ∧ m.side = S)) →
      st.node_name ∉ l →
      (∀ x ∈ l, ¬ substBaseSide N S x = st.node_name) →
      l.foldlM (fun s n => do
          let r ← updateNodeName s n
          pure r.1) st
        = some { st with scene := mapSceneRef (listSubst l (substBaseSide N S)) st.scene } := by
  intro l
  induction l with
  | nil =>
    intro st bk hbk hN hS hl hnn hsub
    show some st = _
    rw [mapSceneRef_congr (listSubst_nil (substBaseSide N S)), mapSceneRef_id]
  | cons n t ih =>
    intro st bk hbk hN hS hl hnn hsub
    subst hN
    subst hS
    obtain ⟨m, hm, hmns⟩ := hl n (List.mem_cons_self n t)
    have hτnt : substBaseSide bk.fields.name bk.fields.side n ∉ t := by
      intro hc
      obtain ⟨my, hy, hyns⟩ := hl _ (List.mem_cons_of_mem n hc)
      rw [hm] at hy
      have hinj := NodeName.meta.inj hy.symm
      exact hyns ⟨by rw [hinj], by rw [hinj]⟩
    have hstep := updateNodeName_eq st bk n m hbk hm
    have hcond : ∀ y, pointSubst n (substBaseSide bk.fields.name bk.fields.side n) y
        = st.node_name ↔ y = st.node_name := by
      intro y
      unfold pointSubst
      by_cases hy : y = n
      · subst hy
        rw [if_pos rfl]
        constructor
        · intro hc
          exact absurd hc (hsub y (List.mem_cons_self y t))
        · intro hc
          exact absurd hc.symm (fun hcc => hnn (hcc ▸ List.mem_cons_self y t))
      · rw [if_neg hy]
    have hbk1 : findNode (renameNode st.scene n
        (substBaseSide bk.fields.name bk.fields.side n)) st.node_name
        = some (mapNodeRef (pointSubst n (substBaseSide bk.fields.name bk.fields.side n)) bk) := by
      unfold renameNode
      rw [findNode_mapSceneRef_of _ _ _ hcond, hbk]
      rfl
    have hih := ih
      ⟨st.node_name, renameNode st.scene n (substBaseSide bk.fields.name bk.fields.side n),
        st.rig, st.cfg⟩
      (mapNodeRef (pointSubst n (substBaseSide bk.fields.name bk.fields.side n)) bk)
      hbk1 rfl rfl
      (fun x hx => hl x (List.mem_cons_of_mem n hx))
      (fun hc => hnn (List.mem_cons_of_mem n hc))
      (fun x hx => hsub x (List.mem_cons_of_mem n hx))
    rw [List.foldlM_cons]
    simp only [Option.bind_eq_bind, Option.pure_def] at hih ⊢
    rw [hstep]
    simp only [Option.some_bind]
    rw [hih]
    congr 1
    simp only [State.mk.injEq, true_and, and_true]
    unfold renameNode
    rw [mapSceneRef_comp]
    exact mapSceneRef_congr (fun y =>
      listSubst_cons_point n t (substBaseSide bk.fields.name bk.fields.side) hτnt y) st.scene

theorem updateNodes_id (s : Scene) (x : NodeName) :
    updateNodes s x (fun nd => nd) = s := by
  unfold updateNodes
  have h1 : s.nodes.map (fun nd => if nd.name = x then nd else nd) = s.nodes := by
    calc s.nodes.map (fun nd => if nd.name = x then nd else nd)
        = s.nodes.map (fun nd => nd) := List.map_congr_left (fun nd _ => ite_self nd)
      _ = s.nodes := List.map_id' s.nodes
  rw [h1]

theorem attrFold_eq (N S : String) (nn : NodeName) :
    ∀ (L : List ((NodeName × String) × String)) (st : State),
      (∀ q ∈ L, ∃ m, q.1.1 = NodeName.meta m ∧ ¬(m.base_name = N ∧ m.side = S)) →
      L.foldlM (fun (s : State) q => do
          let m2 ← metadata_from_name q.1.1
          let newNode := name_from_metadata { m2 with base_name := N, side := S }
          pure { s with scene := renamePersistentAttr s.scene nn q.1 (newNode, q.1.2) }) st
        = some { st with scene := updateNodes st.scene nn (fun nd =>
            { nd with persistentAttrs := nd.persistentAttrs.map (fun e =>
                if e.1 ∈ L.map (fun q => q.1)
                then ((substBaseSide N S e.1.1, e.1.2), e.2) else e) }) } := by
  intro L
  induction L with
  | nil =>
    intro st hsrc
    show some st = _
    have hg : (fun nd : SceneNode =>
        ({ nd with persistentAttrs := nd.persistentAttrs.map (fun e =>
          if e.1 ∈ ([] : List ((NodeName × String) × String)).map (fun q => q.1)
          then ((substBaseSide N S e.1.1, e.1.2), e.2) else e) } : SceneNode))
        = fun nd => nd := by
      funext nd
      have h1 : nd.persistentAttrs.map (fun e =>
          if e.1 ∈ ([] : List ((NodeName × String) × String)).map (fun q => q.1)
          then ((substBaseSide N S e.1.1, e.1.2), e.2) else e) = nd.persistentAttrs := by
        calc nd.persistentAttrs.map (fun e =>
            if e.1 ∈ ([] : List ((NodeName × String) × String)).map (fun q => q.1)
            then ((substBaseSide N S e.1.1, e.1.2), e.2) else e)
            = nd.persistentAttrs.map (fun e => e) :=
              List.map_congr_left (fun e _ => by simp)
          _ = nd.persistentAttrs := List.map_id' _
      rw [h1]
    rw [hg, updateNodes_id]
  | cons q T ih =>
    intro st hsrc
    obtain ⟨m2, hm2, hm2ns⟩ := hsrc q (List.mem_cons_self q T)
    have hkeys : ∀ k ∈ T.map (fun q => q.1),
        ¬ k = (substBaseSide N S q.1.1, q.1.2) := by
      intro k hk hcon
      obtain ⟨q', hq', hq'eq⟩ := List.mem_map.mp hk
      obtain ⟨m', hm', hm'ns⟩ := hsrc q' (List.mem_cons_of_mem q hq')
      rw [← hq'eq, hm2] at hcon
      have h1 : q'.1.1 = NodeName.meta { m2 with base_name := N, side := S } := by
        have := congrArg Prod.fst hcon
        exact this
      rw [hm'] at h1
      have h2 := NodeName.meta.inj h1
      exact hm'ns ⟨by rw [h2], by rw [h2]⟩
    rw [List.foldlM_cons]
    have hstep : (do
        let m3 ← metadata_from_name q.1.1
        let newNode := name_from_metadata { m3 with base_name := N, side := S }
        pure { st with scene := renamePersistentAttr st.scene nn q.1 (newNode, q.1.2) }
        : Option State)
        = some ⟨st.node_name, renamePersistentAttr st.scene nn q.1
            (NodeName.meta { m2 with base_name := N, side := S }, q.1.2), st.rig, st.cfg⟩ := by
      rw [hm2]
      rfl
    simp only [Option.bind_eq_bind, Option.pure_def] at hstep ⊢
    rw [hstep]
    simp only [Option.some_bind]
    have hih := ih ⟨st.node_name, renamePersistentAttr st.scene nn q.1
        (NodeName.meta { m2 with base_name := N, side := S }, q.1.2), st.rig, st.cfg⟩
      (fun q' hq' => hsrc q' (List.mem_cons_of_mem q hq'))
    simp only [Option.bind_eq_bind, Option.pure_def] at hih
    rw [hih]
    congr 1
    simp only [State.mk.injEq, true_and, and_true]
    unfold renamePersistentAttr
    have hcomp := updateNodes_updateNodes st.scene nn
      (fun nd => { nd with persistentAttrs := nd.persistentAttrs.map (fun e =>
        if e.1 = q.1
        then ((NodeName.meta { m2 with base_name := N, side := S }, q.1.2), e.2) else e) })
      (fun nd => { nd with persistentAttrs := nd.persistentAttrs.map (fun e =>
        if e.1 ∈ T.map (fun q => q.1)
        then ((substBaseSide N S e.1.1, e.1.2), e.2) else e) })
      (fun nd => rfl)
    rw [hcomp]
    congr 1
    funext nd
    simp only [SceneNode.mk.injEq, true_and, and_true]
    rw [List.map_map]
    refine (List.map_congr_left ?_).symm
    intro e _
    show (if e.1 ∈ (q :: T).map (fun q => q.1)
        then ((substBaseSide N S e.1.1, e.1.2), e.2) else e)
      = (if (if e.1 = q.1
            then ((NodeName.meta { m2 with base_name := N, side := S }, q.1.2), e.2)
            else e).1 ∈ T.map (fun q => q.1)
         then ((substBaseSide N S (if e.1 = q.1
            then ((NodeName.meta { m2 with base_name := N, side := S }, q.1.2), e.2)
            else e).1.1, (if e.1 = q.1
            then ((NodeName.meta { m2 with base_name := N, side := S }, q.1.2), e.2)
            else e).1.2), (if e.1 = q.1
            then ((NodeName.meta { m2 with base_name := N, side := S }, q.1.2), e.2)
            else e).2)
         else (if e.1 = q.1
            then ((NodeName.meta { m2 with base_name := N, side := S }, q.1.2), e.2)
            else e))
    by_cases he : e.1 = q.1
    · rw [if_pos he]
      show (if e.1 ∈ (q :: T).map (fun q => q.1)
          then ((substBaseSide N S e.1.1, e.1.2), e.2) else e)
        = (if (NodeName.meta { m2 with base_name := N, side := S }, q.1.2) ∈ T.map (fun q => q.1)
           then ((substBaseSide N S (NodeName.meta { m2 with base_name := N, side := S }), q.1.2), e.2)
           else ((NodeName.meta { m2 with base_name := N, side := S }, q.1.2), e.2))
      have hnot : ¬ ((NodeName.meta { m2 with base_name := N, side := S }, q.1.2)
          ∈ T.map (fun q => q.1)) := fun hc => hkeys _ hc (by rw [hm2]; rfl)
      have hmem : e.1 ∈ (q :: T).map (fun q => q.1) := by
        rw [he]
        exact List.mem_map_of_mem (fun q => q.1) (List.mem_cons_self q T)
      rw [if_neg hnot, if_pos hmem, he, hm2]
      rfl
    · rw [if_neg he]
      by_cases het : e.1 ∈ T.map (fun q => q.1)
      · have hmem : e.1 ∈ (q :: T).map (fun q => q.1) := by
          simp only [List.map_cons, List.mem_cons]
          exact Or.inr het
        rw [if_pos het, if_pos hmem]
      · have hnot : ¬ e.1 ∈ (q :: T).map (fun q => q.1) := by
          intro hc
          simp only [List.map_cons, List.mem_cons] at hc
          rcases hc with h1 | h2
          · exact he h1
          · exact het h2
        rw [if_neg het, if_neg hnot]

theorem find?_rename_new (old new : NodeName) :
    ∀ (l : List SceneNode) (bk : SceneNode),
      l.find? (fun nd => decide (nd.name = old)) = some bk →
      (∀ nd ∈ l, ¬ nd.name = new) →
      (l.map (mapNodeRef (pointSubst old new))).find?
          (fun nd => decide (nd.name = new))
        = some (mapNodeRef (pointSubst old new) bk) := by
  intro l
  induction l with
  | nil =>
    intro bk h _
    exact absurd h (by simp)
  | cons nd t ih =>
    intro bk h hfr
    rw [List.map_cons]
    by_cases hx : nd.name = old
    · rw [@List.find?_cons_of_pos SceneNode (fun nd => decide (nd.name = old)) nd t
        (decide_eq_true hx)] at h
      have hname : decide ((mapNodeRef (pointSubst old new) nd).name = new) = true := by
        apply decide_eq_true
        show pointSubst old new nd.name = new
        rw [hx]
        unfold pointSubst
        rw [if_pos rfl]
      rw [@List.find?_cons_of_pos SceneNode (fun nd => decide (nd.name = new))
        (mapNodeRef (pointSubst old new) nd) (List.map (mapNodeRef (pointSubst old new)) t) hname]
      injection h with h
      rw [h]
    · rw [@List.find?_cons_of_neg SceneNode (fun nd => decide (nd.name = old)) nd t
        (fun hc => hx (of_decide_eq_true hc))] at h
      have hname : ¬ decide ((mapNodeRef (pointSubst old new) nd).name = new) = true := by
        intro hc
        have hc2 : pointSubst old new nd.name = new := of_decide_eq_true hc
        unfold pointSubst at hc2
        rw [if_neg hx] at hc2
        exact hfr nd (List.mem_cons_self nd t) hc2
      rw [@List.find?_cons_of_neg SceneNode (fun nd => decide (nd.name = new))
        (mapNodeRef (pointSubst old new) nd) (List.map (mapNodeRef (pointSubst old new)) t) hname]
      exact ih bk h (fun x hx' => hfr x (List.mem_cons_of_mem nd hx'))

theorem findNode_rename_new {s : Scene} {old : NodeName} {bk : SceneNode} (new : NodeName)
    (hbk : findNode s old = some bk) (hfresh : objExists s new = false) :
    findNode (renameNode s old new) new = some (mapNodeRef (pointSubst old new) bk) := by
  have hnone : s.nodes.find? (fun nd => decide (nd.name = new)) = none :=
    objExists_false_findNode hfresh
  have hfr : ∀ nd ∈ s.nodes, ¬ nd.name = new := by
    intro nd hnd hc
    have h2 := List.find?_eq_none.mp hnone nd hnd
    exact h2 (decide_eq_true hc)
  exact find?_rename_new old new s.nodes bk hbk hfr

/-- C1: on a module with `is_built` false whose `name`/`side` fields differ
from the identity decoded from the backing node's name, `update` renames
the backing node to the newly encoded name (role/description/id kept),
renames every owned node by the same base_name/side substitution (their
role/description/id name components unchanged), and re-encodes the
node-name prefix of every persistent-backup attribute on the backing node
with the new base_name and side. -/
theorem update_renames_consistently (st : State) (bk : SceneNode) (md : Metadata)
    (hbk : findNode st.scene st.node_name = some bk)
    (hmd : st.node_name = NodeName.meta md)
    (hnb : bk.fields.is_built = false)
    (hch : ¬ bk.fields.name = md.base_name ∨ ¬ bk.fields.side = md.side)
    (hself : st.node_name ∉ bk.fields.owned_nodes)
    (hfresh : objExists st.scene
        (substBaseSide bk.fields.name bk.fields.side st.node_name) = false)
    (hexist : ∀ x ∈ bk.fields.owned_nodes, objExists st.scene x = true)
    (hown : ∀ x ∈ bk.fields.owned_nodes, ∃ m2, x = NodeName.meta m2
        ∧ ¬(m2.base_name = bk.fields.name ∧ m2.side = bk.fields.side)
        ∧ ¬ substBaseSide bk.fields.name bk.fields.side x
            = substBaseSide bk.fields.name bk.fields.side st.node_name)
    (hattr : ∀ q ∈ bk.persistentAttrs, ∃ m2, q.1.1 = NodeName.meta m2
        ∧ ¬(m2.base_name = bk.fields.name ∧ m2.side = bk.fields.side)) :
    ∃ st', update st = some st'
      ∧ st'.node_name = substBaseSide bk.fields.name bk.fields.side st.node_name
      ∧ metadata_from_name st'.node_name = some
          ⟨bk.fields.name, bk.fields.side, md.role, md.description, md.id⟩
      ∧ objExists st'.scene st'.node_name = true
      ∧ objExists st'.scene st.node_name = false
      ∧ (∀ x ∈ bk.fields.owned_nodes,
          objExists st'.scene (substBaseSide bk.fields.name bk.fields.side x) = true
          ∧ objExists st'.scene x = false)
      ∧ (∀ x ∈ bk.fields.owned_nodes, ∀ m2, x = NodeName.meta m2 →
          metadata_from_name (substBaseSide bk.fields.name bk.fields.side x) = some
            ⟨bk.fields.name, bk.fields.side, m2.role, m2.description, m2.id⟩)
      ∧ ∃ bk2, findNode st'.scene st'.node_name = some bk2
          ∧ bk2.persistentAttrs = bk.persistentAttrs.map (fun e =>
              ((substBaseSide bk.fields.name bk.fields.side e.1.1, e.1.2), e.2)) := by
  obtain ⟨cs, hP⟩ := updateParentJoint_shape st
  have hgf : getFields st = some bk.fields := getFields_of_findNode hbk
  have hnn : substBaseSide bk.fields.name bk.fields.side st.node_name
      = NodeName.meta ⟨bk.fields.name, bk.fields.side, md.role, md.description, md.id⟩ := by
    rw [hmd]
    rfl
  have hnewNotOwned : substBaseSide bk.fields.name bk.fields.side st.node_name
      ∉ bk.fields.owned_nodes := by
    intro hc
    obtain ⟨m2, hm2, hns, _⟩ := hown _ hc
    rw [hnn] at hm2
    have h3 := NodeName.meta.inj hm2
    exact hns ⟨by rw [← h3], by rw [← h3]⟩
  have hnbt : ¬ bk.fields.is_built = true := by
    rw [hnb]
    exact Bool.false_ne_true
  have hselfne : ∀ x ∈ bk.fields.owned_nodes, ¬ x = st.node_name :=
    fun x hx hc => hself (hc ▸ hx)
  have hcond2 : ∀ y, listSubst bk.fields.owned_nodes
        (substBaseSide bk.fields.name bk.fields.side) y
        = substBaseSide bk.fields.name bk.fields.side st.node_name
      ↔ y = substBaseSide bk.fields.name bk.fields.side st.node_name := by
    intro y
    constructor
    · intro hy
      unfold listSubst at hy
      by_cases hmem : y ∈ bk.fields.owned_nodes
      · rw [if_pos hmem] at hy
        obtain ⟨m2, hm2, hns, hne⟩ := hown y hmem
        exact absurd hy hne
      · rwa [if_neg hmem] at hy
    · intro hy
      subst hy
      unfold listSubst
      rw [if_neg hnewNotOwned]
  have hupd : update st = some
      ⟨substBaseSide bk.fields.name bk.fields.side st.node_name,
        updateNodes
          (mapSceneRef (listSubst bk.fields.owned_nodes
              (substBaseSide bk.fields.name bk.fields.side))
            (mapSceneRef (pointSubst st.node_name
                (substBaseSide bk.fields.name bk.fields.side st.node_name))
              { st.scene with constraints := cs }))
          (substBaseSide bk.fields.name bk.fields.side st.node_name)
          (fun nd => { nd with persistentAttrs := nd.persistentAttrs.map (fun e =>
              if e.1 ∈ bk.persistentAttrs.map (fun q => q.1)
              then ((substBaseSide bk.fields.name bk.fields.side e.1.1, e.1.2), e.2)
              else e) }),
        st.rig, st.cfg⟩ := by
    unfold update
    rw [hgf]
    simp only [Option.bind_eq_bind, Option.pure_def, Option.some_bind]
    rw [if_neg hnbt]
    rw [hP]
    generalize hgen : ({ st with scene := { st.scene with constraints := cs } } : State) = stP
    have hnnP : stP.node_name = st.node_name := by rw [← hgen]
    have hsceneP : stP.scene = { st.scene with constraints := cs } := by rw [← hgen]
    have hbkP : findNode stP.scene stP.node_name = some bk := by
      rw [hnnP, hsceneP]
      exact hbk
    rw [hnnP]
    rw [show metadata_from_name st.node_name = some md from by rw [hmd]; rfl]
    simp only [Option.some_bind]
    rw [if_pos hch]
    rw [updateNodeName_eq stP bk st.node_name md hbkP hmd]
    simp only [Option.some_bind]
    have hfind1 : findNode (renameNode stP.scene st.node_name (substBaseSide bk.fields.name bk.fields.side st.node_name)) (substBaseSide bk.fields.name bk.fields.side st.node_name)
        = some (mapNodeRef (pointSubst st.node_name (substBaseSide bk.fields.name bk.fields.side st.node_name)) bk) := by
      apply findNode_rename_new
      · rw [hsceneP]
        exact hbk
      · show objExists stP.scene (substBaseSide bk.fields.name bk.fields.side st.node_name) = false
        rw [hsceneP]
        exact hfresh
    have hgf1 : getFields ⟨substBaseSide bk.fields.name bk.fields.side st.node_name,
        renameNode stP.scene st.node_name (substBaseSide bk.fields.name bk.fields.side st.node_name), stP.rig, stP.cfg⟩
        = some (mapNodeRef (pointSubst st.node_name (substBaseSide bk.fields.name bk.fields.side st.node_name)) bk).fields := getFields_of_findNode hfind1
    rw [hgf1]
    simp only [Option.some_bind]
    have hlist : (mapNodeRef (pointSubst st.node_name (substBaseSide bk.fields.name bk.fields.side st.node_name)) bk).fields.owned_nodes = bk.fields.owned_nodes := by
      show bk.fields.owned_nodes.map (pointSubst st.node_name (substBaseSide bk.fields.name bk.fields.side st.node_name)) = bk.fields.owned_nodes
      calc bk.fields.owned_nodes.map (pointSubst st.node_name (substBaseSide bk.fields.name bk.fields.side st.node_name))
          = bk.fields.owned_nodes.map (fun x => x) := List.map_congr_left (fun x hx => by
              unfold pointSubst
              rw [if_neg (fun hc : x = st.node_name => hself (hc ▸ hx))])
        _ = bk.fields.owned_nodes := List.map_id' _
    rw [hlist]
    have hfold := ownedFold_eq bk.fields.name bk.fields.side bk.fields.owned_nodes
      ⟨substBaseSide bk.fields.name bk.fields.side st.node_name, renameNode stP.scene st.node_name (substBaseSide bk.fields.name bk.fields.side st.node_name), stP.rig, stP.cfg⟩
      (mapNodeRef (pointSubst st.node_name (substBaseSide bk.fields.name bk.fields.side st.node_name)) bk) hfind1 rfl rfl
      (fun x hx => by
        obtain ⟨m2, h1, h2, _⟩ := hown x hx
        exact ⟨m2, h1, h2⟩)
      (by
        show (substBaseSide bk.fields.name bk.fields.side st.node_name) ∉ bk.fields.owned_nodes
        exact hnewNotOwned)
      (fun x hx => by
        obtain ⟨m2, _, _, h3⟩ := hown x hx
        exact h3)
    simp only [Option.bind_eq_bind, Option.pure_def, Option.some_bind] at hfold
    rw [hfold]
    simp only [Option.some_bind]
    have hfind2 : findNode (mapSceneRef (listSubst bk.fields.owned_nodes (substBaseSide bk.fields.name bk.fields.side))
          (renameNode stP.scene st.node_name (substBaseSide bk.fields.name bk.fields.side st.node_name))) (substBaseSide bk.fields.name bk.fields.side st.node_name)
        = some (mapNodeRef (listSubst bk.fields.owned_nodes (substBaseSide bk.fields.name bk.fields.side)) (mapNodeRef (pointSubst st.node_name (substBaseSide bk.fields.name bk.fields.side st.node_name)) bk)) := by
      rw [findNode_mapSceneRef_of _ _ _ hcond2, hfind1]
      rfl
    rw [hfind2]
    simp only [Option.some_bind]
    rw [show (mapNodeRef (listSubst bk.fields.owned_nodes (substBaseSide bk.fields.name bk.fields.side)) (mapNodeRef (pointSubst st.node_name (substBaseSide bk.fields.name bk.fields.side st.node_name)) bk)).persistentAttrs
        = bk.persistentAttrs from rfl]
    rw [show (mapNodeRef (listSubst bk.fields.owned_nodes (substBaseSide bk.fields.name bk.fields.side)) (mapNodeRef (pointSubst st.node_name (substBaseSide bk.fields.name bk.fields.side st.node_name)) bk)).fields.name
        = bk.fields.name from rfl]
    rw [show (mapNodeRef (listSubst bk.fields.owned_nodes (substBaseSide bk.fields.name bk.fields.side)) (mapNodeRef (pointSubst st.node_name (substBaseSide bk.fields.name bk.fields.side st.node_name)) bk)).fields.side
        = bk.fields.side from rfl]
    have hattrFold := attrFold_eq bk.fields.name bk.fields.side (substBaseSide bk.fields.name bk.fields.side st.node_name) bk.persistentAttrs
      ⟨substBaseSide bk.fields.name bk.fields.side st.node_name, mapSceneRef (listSubst bk.fields.owned_nodes (substBaseSide bk.fields.name bk.fields.side)) (renameNode stP.scene st.node_name (substBaseSide bk.fields.name bk.fields.side st.node_name)),
        stP.rig, stP.cfg⟩ hattr
    simp only [Option.bind_eq_bind, Option.pure_def, Option.some_bind] at hattrFold
    rw [hattrFold]
    simp only [Option.some_bind]
    rw [← hgen]
    rfl
  have hbn : bk.name = st.node_name := findNode_name hbk
  have hbkCs : findNode ({ st.scene with constraints := cs } : Scene) st.node_name
      = some bk := hbk
  have hfreshCs : objExists ({ st.scene with constraints := cs } : Scene) (substBaseSide bk.fields.name bk.fields.side st.node_name) = false :=
    hfresh
  have hrenC : findNode (mapSceneRef (pointSubst st.node_name (substBaseSide bk.fields.name bk.fields.side st.node_name)) ({ st.scene with constraints := cs } : Scene)) (substBaseSide bk.fields.name bk.fields.side st.node_name)
      = some (mapNodeRef (pointSubst st.node_name (substBaseSide bk.fields.name bk.fields.side st.node_name)) bk) := findNode_rename_new _ hbkCs hfreshCs
  have hfind2C : findNode (mapSceneRef (listSubst bk.fields.owned_nodes (substBaseSide bk.fields.name bk.fields.side)) (mapSceneRef (pointSubst st.node_name (substBaseSide bk.fields.name bk.fields.side st.node_name)) ({ st.scene with constraints := cs } : Scene))) (substBaseSide bk.fields.name bk.fields.side st.node_name)
      = some (mapNodeRef (listSubst bk.fields.owned_nodes (substBaseSide bk.fields.name bk.fields.side)) (mapNodeRef (pointSubst st.node_name (substBaseSide bk.fields.name bk.fields.side st.node_name)) bk)) := by
    rw [findNode_mapSceneRef_of _ _ _ hcond2, hrenC]
    rfl
  have hnameBK2 : ((mapNodeRef (listSubst bk.fields.owned_nodes (substBaseSide bk.fields.name bk.fields.side)) (mapNodeRef (pointSubst st.node_name (substBaseSide bk.fields.name bk.fields.side st.node_name)) bk))).name = (substBaseSide bk.fields.name bk.fields.side st.node_name) := by
    show (listSubst bk.fields.owned_nodes (substBaseSide bk.fields.name bk.fields.side)) ((pointSubst st.node_name (substBaseSide bk.fields.name bk.fields.side st.node_name)) bk.name) = (substBaseSide bk.fields.name bk.fields.side st.node_name)
    rw [hbn]
    rw [show (pointSubst st.node_name (substBaseSide bk.fields.name bk.fields.side st.node_name)) st.node_name = (substBaseSide bk.fields.name bk.fields.side st.node_name) from by unfold pointSubst; rw [if_pos rfl]]
    unfold listSubst
    rw [if_neg hnewNotOwned]
  have hfindFin : findNode (updateNodes (mapSceneRef (listSubst bk.fields.owned_nodes (substBaseSide bk.fields.name bk.fields.side)) (mapSceneRef (pointSubst st.node_name (substBaseSide bk.fields.name bk.fields.side st.node_name)) ({ st.scene with constraints := cs } : Scene))) (substBaseSide bk.fields.name bk.fields.side st.node_name)
      (fun nd => { nd with persistentAttrs := nd.persistentAttrs.map (fun e =>
        if e.1 ∈ bk.persistentAttrs.map (fun q => q.1)
        then ((substBaseSide bk.fields.name bk.fields.side e.1.1, e.1.2), e.2)
        else e) })) (substBaseSide bk.fields.name bk.fields.side st.node_name) = some ({ (mapNodeRef (listSubst bk.fields.owned_nodes (substBaseSide bk.fields.name bk.fields.side)) (mapNodeRef (pointSubst st.node_name (substBaseSide bk.fields.name bk.fields.side st.node_name)) bk)) with persistentAttrs := (mapNodeRef (listSubst bk.fields.owned_nodes (substBaseSide bk.fields.name bk.fields.side)) (mapNodeRef (pointSubst st.node_name (substBaseSide bk.fields.name bk.fields.side st.node_name)) bk)).persistentAttrs.map (fun e =>
        if e.1 ∈ bk.persistentAttrs.map (fun q => q.1)
        then ((substBaseSide bk.fields.name bk.fields.side e.1.1, e.1.2), e.2)
        else e) } : SceneNode) := by
    rw [findNode_updateNodes (mapSceneRef (listSubst bk.fields.owned_nodes (substBaseSide bk.fields.name bk.fields.side)) (mapSceneRef (pointSubst st.node_name (substBaseSide bk.fields.name bk.fields.side st.node_name)) ({ st.scene with constraints := cs } : Scene))) (substBaseSide bk.fields.name bk.fields.side st.node_name)
      (fun nd => { nd with persistentAttrs := nd.persistentAttrs.map (fun e =>
        if e.1 ∈ bk.persistentAttrs.map (fun q => q.1)
        then ((substBaseSide bk.fields.name bk.fields.side e.1.1, e.1.2), e.2)
        else e) }) (fun nd => rfl) (substBaseSide bk.fields.name bk.fields.side st.node_name), hfind2C]
    simp only [Option.map_some']
    rw [if_pos hnameBK2]
  have hoe : ∀ y, (objExists (updateNodes (mapSceneRef (listSubst bk.fields.owned_nodes (substBaseSide bk.fields.name bk.fields.side)) (mapSceneRef (pointSubst st.node_name (substBaseSide bk.fields.name bk.fields.side st.node_name)) ({ st.scene with constraints := cs } : Scene))) (substBaseSide bk.fields.name bk.fields.side st.node_name)
      (fun nd => { nd with persistentAttrs := nd.persistentAttrs.map (fun e =>
        if e.1 ∈ bk.persistentAttrs.map (fun q => q.1)
        then ((substBaseSide bk.fields.name bk.fields.side e.1.1, e.1.2), e.2)
        else e) })) y = true
      ↔ ∃ nd ∈ st.scene.nodes, (listSubst bk.fields.owned_nodes (substBaseSide bk.fields.name bk.fields.side)) ((pointSubst st.node_name (substBaseSide bk.fields.name bk.fields.side st.node_name)) nd.name) = y) := by
    intro y
    rw [objExists_updateNodes (mapSceneRef (listSubst bk.fields.owned_nodes (substBaseSide bk.fields.name bk.fields.side)) (mapSceneRef (pointSubst st.node_name (substBaseSide bk.fields.name bk.fields.side st.node_name)) ({ st.scene with constraints := cs } : Scene))) (substBaseSide bk.fields.name bk.fields.side st.node_name)
      (fun nd => { nd with persistentAttrs := nd.persistentAttrs.map (fun e =>
        if e.1 ∈ bk.persistentAttrs.map (fun q => q.1)
        then ((substBaseSide bk.fields.name bk.fields.side e.1.1, e.1.2), e.2)
        else e) }) (fun nd => rfl) y]
    rw [mapSceneRef_comp]
    exact objExists_mapSceneRef_iff _ _ y
  have hA2 : metadata_from_name (substBaseSide bk.fields.name bk.fields.side st.node_name)
      = some ⟨bk.fields.name, bk.fields.side, md.role, md.description, md.id⟩ := by
    rw [hnn]
    rfl
  have hA3 : objExists (updateNodes (mapSceneRef (listSubst bk.fields.owned_nodes (substBaseSide bk.fields.name bk.fields.side)) (mapSceneRef (pointSubst st.node_name (substBaseSide bk.fields.name bk.fields.side st.node_name)) ({ st.scene with constraints := cs } : Scene))) (substBaseSide bk.fields.name bk.fields.side st.node_name)
      (fun nd => { nd with persistentAttrs := nd.persistentAttrs.map (fun e =>
        if e.1 ∈ bk.persistentAttrs.map (fun q => q.1)
        then ((substBaseSide bk.fields.name bk.fields.side e.1.1, e.1.2), e.2)
        else e) })) (substBaseSide bk.fields.name bk.fields.side st.node_name) = true := by
    unfold objExists
    rw [hfindFin]
    rfl
  have hA4 : objExists (updateNodes (mapSceneRef (listSubst bk.fields.owned_nodes (substBaseSide bk.fields.name bk.fields.side)) (mapSceneRef (pointSubst st.node_name (substBaseSide bk.fields.name bk.fields.side st.node_name)) ({ st.scene with constraints := cs } : Scene))) (substBaseSide bk.fields.name bk.fields.side st.node_name)
      (fun nd => { nd with persistentAttrs := nd.persistentAttrs.map (fun e =>
        if e.1 ∈ bk.persistentAttrs.map (fun q => q.1)
        then ((substBaseSide bk.fields.name bk.fields.side e.1.1, e.1.2), e.2)
        else e) })) st.node_name = false := by
    cases hob : objExists (updateNodes (mapSceneRef (listSubst bk.fields.owned_nodes (substBaseSide bk.fields.name bk.fields.side)) (mapSceneRef (pointSubst st.node_name (substBaseSide bk.fields.name bk.fields.side st.node_name)) ({ st.scene with constraints := cs } : Scene))) (substBaseSide bk.fields.name bk.fields.side st.node_name)
      (fun nd => { nd with persistentAttrs := nd.persistentAttrs.map (fun e =>
        if e.1 ∈ bk.persistentAttrs.map (fun q => q.1)
        then ((substBaseSide bk.fields.name bk.fields.side e.1.1, e.1.2), e.2)
        else e) })) st.node_name with
    | false => rfl
    | true =>
      exfalso
      obtain ⟨nd, hmem, heq⟩ := (hoe st.node_name).mp hob
      by_cases hz : nd.name = st.node_name
      · rw [hz] at heq
        rw [show (pointSubst st.node_name (substBaseSide bk.fields.name bk.fields.side st.node_name)) st.node_name = (substBaseSide bk.fields.name bk.fields.side st.node_name) from by
          unfold pointSubst; rw [if_pos rfl]] at heq
        unfold listSubst at heq
        rw [if_neg hnewNotOwned] at heq
        rw [hnn, hmd] at heq
        have h5 := NodeName.meta.inj heq
        rcases hch with h6 | h6
        · exact h6 (by rw [← h5])
        · exact h6 (by rw [← h5])
      · rw [show (pointSubst st.node_name (substBaseSide bk.fields.name bk.fields.side st.node_name)) nd.name = nd.name from by
          unfold pointSubst; rw [if_neg hz]] at heq
        by_cases hmem2 : nd.name ∈ bk.fields.owned_nodes
        · unfold listSubst at heq
          rw [if_pos hmem2] at heq
          obtain ⟨m2, hm2, hns2, _⟩ := hown nd.name hmem2
          rw [hm2, hmd] at heq
          have h5 := NodeName.meta.inj heq
          rcases hch with h6 | h6
          · exact h6 (by rw [← h5])
          · exact h6 (by rw [← h5])
        · unfold listSubst at heq
          rw [if_neg hmem2] at heq
          exact hz heq
  have hA5 : ∀ x ∈ bk.fields.owned_nodes,
      objExists (updateNodes (mapSceneRef (listSubst bk.fields.owned_nodes (substBaseSide bk.fields.name bk.fields.side)) (mapSceneRef (pointSubst st.node_name (substBaseSide bk.fields.name bk.fields.side st.node_name)) ({ st.scene with constraints := cs } : Scene))) (substBaseSide bk.fields.name bk.fields.side st.node_name)
      (fun nd => { nd with persistentAttrs := nd.persistentAttrs.map (fun e =>
        if e.1 ∈ bk.persistentAttrs.map (fun q => q.1)
        then ((substBaseSide bk.fields.name bk.fields.side e.1.1, e.1.2), e.2)
        else e) })) (substBaseSide bk.fields.name bk.fields.side x) = true
      ∧ objExists (updateNodes (mapSceneRef (listSubst bk.fields.owned_nodes (substBaseSide bk.fields.name bk.fields.side)) (mapSceneRef (pointSubst st.node_name (substBaseSide bk.fields.name bk.fields.side st.node_name)) ({ st.scene with constraints := cs } : Scene))) (substBaseSide bk.fields.name bk.fields.side st.node_name)
      (fun nd => { nd with persistentAttrs := nd.persistentAttrs.map (fun e =>
        if e.1 ∈ bk.persistentAttrs.map (fun q => q.1)
        then ((substBaseSide bk.fields.name bk.fields.side e.1.1, e.1.2), e.2)
        else e) })) x = false := by
    intro x hx
    obtain ⟨m2, hm2, hns2, hneq2⟩ := hown x hx
    constructor
    · refine (hoe _).mpr ?_
      obtain ⟨nd0, hf0⟩ := objExists_some (hexist x hx)
      have hmem0 : nd0 ∈ st.scene.nodes := List.mem_of_find?_eq_some hf0
      refine ⟨nd0, hmem0, ?_⟩
      rw [findNode_name hf0]
      rw [show (pointSubst st.node_name (substBaseSide bk.fields.name bk.fields.side st.node_name)) x = x from by
        unfold pointSubst; rw [if_neg (hselfne x hx)]]
      unfold listSubst
      rw [if_pos hx]
    · cases hob : objExists (updateNodes (mapSceneRef (listSubst bk.fields.owned_nodes (substBaseSide bk.fields.name bk.fields.side)) (mapSceneRef (pointSubst st.node_name (substBaseSide bk.fields.name bk.fields.side st.node_name)) ({ st.scene with constraints := cs } : Scene))) (substBaseSide bk.fields.name bk.fields.side st.node_name)
      (fun nd => { nd with persistentAttrs := nd.persistentAttrs.map (fun e =>
        if e.1 ∈ bk.persistentAttrs.map (fun q => q.1)
        then ((substBaseSide bk.fields.name bk.fields.side e.1.1, e.1.2), e.2)
        else e) })) x with
      | false => rfl
      | true =>
        exfalso
        obtain ⟨nd, hmem, heq⟩ := (hoe x).mp hob
        by_cases hz : nd.name = st.node_name
        · rw [hz] at heq
          rw [show (pointSubst st.node_name (substBaseSide bk.fields.name bk.fields.side st.node_name)) st.node_name = (substBaseSide bk.fields.name bk.fields.side st.node_name) from by
            unfold pointSubst; rw [if_pos rfl]] at heq
          unfold listSubst at heq
          rw [if_neg hnewNotOwned] at heq
          rw [hnn, hm2] at heq
          have h5 := NodeName.meta.inj heq
          exact hns2 ⟨by rw [← h5], by rw [← h5]⟩
        · rw [show (pointSubst st.node_name (substBaseSide bk.fields.name bk.fields.side st.node_name)) nd.name = nd.name from by
            unfold pointSubst; rw [if_neg hz]] at heq
          by_cases hmem2 : nd.name ∈ bk.fields.owned_nodes
          · unfold listSubst at heq
            rw [if_pos hmem2] at heq
            obtain ⟨m3, hm3, hns3, _⟩ := hown nd.name hmem2
            rw [hm3, hm2] at heq
            have h5 := NodeName.meta.inj heq
            exact hns2 ⟨by rw [← h5], by rw [← h5]⟩
          · unfold listSubst at heq
            rw [if_neg hmem2] at heq
            exact hmem2 (by rw [heq]; exact hx)
  have hA6 : ∀ x ∈ bk.fields.owned_nodes, ∀ m2, x = NodeName.meta m2 →
      metadata_from_name (substBaseSide bk.fields.name bk.fields.side x)
        = some ⟨bk.fields.name, bk.fields.side, m2.role, m2.description, m2.id⟩ := by
    intro x hx m2 hm2
    subst hm2
    rfl
  have hpaEq : (({ (mapNodeRef (listSubst bk.fields.owned_nodes (substBaseSide bk.fields.name bk.fields.side)) (mapNodeRef (pointSubst st.node_name (substBaseSide bk.fields.name bk.fields.side st.node_name)) bk)) with persistentAttrs := (mapNodeRef (listSubst bk.fields.owned_nodes (substBaseSide bk.fields.name bk.fields.side)) (mapNodeRef (pointSubst st.node_name (substBaseSide bk.fields.name bk.fields.side st.node_name)) bk)).persistentAttrs.map (fun e =>
        if e.1 ∈ bk.persistentAttrs.map (fun q => q.1)
        then ((substBaseSide bk.fields.name bk.fields.side e.1.1, e.1.2), e.2)
        else e) } : SceneNode)).persistentAttrs
      = bk.persistentAttrs.map (fun e =>
          ((substBaseSide bk.fields.name bk.fields.side e.1.1, e.1.2), e.2)) := by
    show bk.persistentAttrs.map (fun e =>
        if e.1 ∈ bk.persistentAttrs.map (fun q => q.1)
        then ((substBaseSide bk.fields.name bk.fields.side e.1.1, e.1.2), e.2)
        else e) = _
    exact List.map_congr_left (fun e he => if_pos (List.mem_map_of_mem (fun q => q.1) he))
  exact ⟨_, hupd, rfl, hA2, hA3, hA4, hA5, hA6, _, hfindFin, hpaEq⟩

theorem update_renames_consistently_witness :
    ∃ st', update exC1St = some st'
      ∧ st'.node_name = substBaseSide exC1Bk.fields.name exC1Bk.fields.side exC1St.node_name
      ∧ metadata_from_name st'.node_name = some
          ⟨exC1Bk.fields.name, exC1Bk.fields.side, exC1Md.role, exC1Md.description, exC1Md.id⟩
      ∧ objExists st'.scene st'.node_name = true
      ∧ objExists st'.scene exC1St.node_name = false
      ∧ (∀ x ∈ exC1Bk.fields.owned_nodes,
          objExists st'.scene (substBaseSide exC1Bk.fields.name exC1Bk.fields.side x) = true
          ∧ objExists st'.scene x = false)
      ∧ (∀ x ∈ exC1Bk.fields.owned_nodes, ∀ m2, x = NodeName.meta m2 →
          metadata_from_name (substBaseSide exC1Bk.fields.name exC1Bk.fields.side x) = some
            ⟨exC1Bk.fields.name, exC1Bk.fields.side, m2.role, m2.description, m2.id⟩)
      ∧ ∃ bk2, findNode st'.scene st'.node_name = some bk2
          ∧ bk2.persistentAttrs = exC1Bk.persistentAttrs.map (fun e =>
              ((substBaseSide exC1Bk.fields.name exC1Bk.fields.side e.1.1, e.1.2), e.2)) :=
  update_renames_consistently exC1St exC1Bk exC1Md rfl rfl rfl
    (Or.inl (by decide)) (by decide) (by decide) (by decide)
    (fun x hx => by
      have hx2 : x ∈ [exC1J] := hx
      rw [List.mem_singleton] at hx2
      subst hx2
      exact ⟨⟨"arm", "M", "deform", none, some 0⟩, rfl, by decide, by decide⟩)
    (fun q hq => by
      have hq2 : q ∈ [((exC1Ctl, "shape_data"), "abc")] := hq
      rw [List.mem_singleton] at hq2
      subst hq2
      exact ⟨⟨"arm", "M", "ctl", none, some 0⟩, rfl, by decide⟩)

theorem findNode_append_left (s : Scene) (x : NodeName) (nd : SceneNode)
    (l : List SceneNode) (cs : List (NodeName × NodeName))
    (h : findNode s x = some nd) :
    findNode ⟨s.nodes ++ l, cs⟩ x = some nd := by
  unfold findNode at h ⊢
  rw [List.find?_append, h]
  rfl

theorem getFields_state_updateNodes_pres (st : State) (x : NodeName)
    (g : SceneNode → SceneNode) (hg : ∀ nd, (g nd).name = nd.name)
    (hf : ∀ nd, (g nd).fields = nd.fields) :
    getFields { st with scene := updateNodes st.scene x g } = getFields st := by
  show (findNode (updateNodes st.scene x g) st.node_name).map (fun nd => nd.fields)
    = getFields st
  rw [findNode_updateNodes st.scene x g hg st.node_name]
  unfold getFields
  cases findNode st.scene st.node_name with
  | none => rfl
  | some nd =>
    simp only [Option.map_some']
    by_cases h : nd.name = x
    · rw [if_pos h]
      show some ((g nd).fields) = some nd.fields
      rw [hf]
    · rw [if_neg h]

theorem getFields_setFieldsF (st : State) (g : ModFields → ModFields) :
    getFields (setFieldsF st g) = (getFields st).map g := by
  show ((findNode (updateNodes st.scene st.node_name
      (fun nd => { nd with fields := g nd.fields })) st.node_name).map (fun nd => nd.fields)) = _
  rw [findNode_updateNodes st.scene st.node_name
    (fun nd => { nd with fields := g nd.fields }) (fun nd => rfl) st.node_name]
  unfold getFields
  cases hf : findNode st.scene st.node_name with
  | none => rfl
  | some nd =>
    simp only [Option.map_some']
    rw [if_pos (findNode_name hf)]

theorem getFields_scene_append (st : State) (l : List SceneNode) {f : ModFields}
    (h : getFields st = some f) :
    getFields { st with scene := { st.scene with nodes := st.scene.nodes ++ l } } = some f := by
  unfold getFields at h ⊢
  cases hf : findNode st.scene st.node_name with
  | none => rw [hf] at h; exact absurd h (by simp)
  | some nd =>
    rw [hf] at h
    rw [show findNode ({ st with scene := { st.scene with
        nodes := st.scene.nodes ++ l } } : State).scene
        ({ st with scene := { st.scene with nodes := st.scene.nodes ++ l } } : State).node_name
      = some nd from findNode_append_left st.scene st.node_name nd l st.scene.constraints hf]
    exact h

theorem getFields_setParent (st : State) (node : NodeName) (p : Option NodeName) :
    getFields (setParent st node p) = getFields st :=
  getFields_state_updateNodes_pres st node _ (fun nd => rfl) (fun nd => rfl)

theorem getFields_zeroJointTransforms (st : State) (node : NodeName) :
    getFields (zeroJointTransforms st node) = getFields st :=
  getFields_state_updateNodes_pres st node _ (fun nd => rfl) (fun nd => rfl)

theorem getFields_zeroLocatorTransforms (st : State) (node : NodeName) :
    getFields (zeroLocatorTransforms st node) = getFields st :=
  getFields_state_updateNodes_pres st node _ (fun nd => rfl) (fun nd => rfl)

theorem getFields_scene_setStringAttr (st : State) (node : NodeName) (a v : String) :
    getFields { st with scene := setStringAttr st.scene node a v } = getFields st :=
  getFields_state_updateNodes_pres st node _ (fun nd => rfl) (fun nd => rfl)

theorem getFields_scene_setWM (st : State) (node : NodeName) (m : M4) :
    getFields { st with scene := setWorldMatrixScene st.scene node m } = getFields st :=
  getFields_state_updateNodes_pres st node _ (fun nd => rfl) (fun nd => rfl)

theorem getFields_createPersistentAttribute (st : State) (node : NodeName) (ln : String) :
    getFields (createPersistentAttribute st node ln) = getFields st := by
  unfold createPersistentAttribute
  cases hb : (findNode st.scene st.node_name).bind
      (fun bk => bk.persistentAttrs.lookup (node, ln)) with
  | some v => exact getFields_scene_setStringAttr st node ln v
  | none =>
    exact Eq.trans
      (getFields_state_updateNodes_pres
        { st with scene := setStringAttr st.scene node ln "" } st.node_name
        _ (fun nd => rfl) (fun nd => rfl))
      (getFields_scene_setStringAttr st node ln "")

theorem createPersistentAttribute_node_name (st : State) (node : NodeName) (ln : String) :
    (createPersistentAttribute st node ln).node_name = st.node_name := by
  unfold createPersistentAttribute
  cases hb : (findNode st.scene st.node_name).bind
      (fun bk => bk.persistentAttrs.lookup (node, ln)) with
  | some v => rfl
  | none => rfl

theorem ifExceptOk {c : Prop} [Decidable c] {e : MopError} {α : Type}
    {v r : α} (h : (if c then Except.error e else Except.ok v) = Except.ok r) : v = r := by
  by_cases hc : c
  · rw [if_pos hc] at h
    exact Except.noConfusion h
  · rw [if_neg hc] at h
    exact Except.ok.inj h

theorem ownershipInv_extend_owned (f : ModFields) (nm : NodeName)
    (h : ownershipInv f = true) :
    ownershipInv { f with owned_nodes := f.owned_nodes ++ [nm] } = true := by
  obtain ⟨h1, h2, h3⟩ := of_decide_eq_true h
  refine decide_eq_true ⟨?_, ?_, ?_⟩
  · exact fun x hx => List.mem_append_left _ (h1 x hx)
  · exact fun x hx => List.mem_append_left _ (h2 x hx)
  · exact fun x hx => List.mem_append_left _ (h3 x hx)

theorem ownershipInv_extend_dj (f : ModFields) (nm : NodeName)
    (h : ownershipInv f = true) :
    ownershipInv { f with owned_nodes := f.owned_nodes ++ [nm], deform_joints := f.deform_joints ++ [nm] } = true := by
  obtain ⟨h1, h2, h3⟩ := of_decide_eq_true h
  refine decide_eq_true ⟨?_, ?_, ?_⟩
  · intro x hx
    rcases List.mem_append.mp hx with h4 | h4
    · exact List.mem_append_left _ (h1 x h4)
    · exact List.mem_append_right _ h4
  · exact fun x hx => List.mem_append_left _ (h2 x hx)
  · exact fun x hx => List.mem_append_left _ (h3 x hx)

theorem ownershipInv_extend_pl (f : ModFields) (nm : NodeName)
    (h : ownershipInv f = true) :
    ownershipInv { f with owned_nodes := f.owned_nodes ++ [nm], placement_locators := f.placement_locators ++ [nm] } = true := by
  obtain ⟨h1, h2, h3⟩ := of_decide_eq_true h
  refine decide_eq_true ⟨?_, ?_, ?_⟩
  · exact fun x hx => List.mem_append_left _ (h1 x hx)
  · intro x hx
    rcases List.mem_append.mp hx with h4 | h4
    · exact List.mem_append_left _ (h2 x h4)
    · exact List.mem_append_right _ h4
  · exact fun x hx => List.mem_append_left _ (h3 x hx)

theorem ownershipInv_break_ctl (f : ModFields) (nm : NodeName)
    (hno : ¬ nm ∈ f.owned_nodes) :
    ¬ ownershipInv { f with controllers := f.controllers ++ [nm] } = true := by
  intro hc
  obtain ⟨h1, h2, h3⟩ := of_decide_eq_true hc
  exact hno (h3 nm (List.mem_append_right _ (List.mem_singleton.mpr rfl)))

theorem getFields_scene_append_eq (st : State) (l : List SceneNode) :
    getFields { st with scene := { st.scene with nodes := st.scene.nodes ++ l } }
      = (getFields st).or
          ((l.find? (fun nd => decide (nd.name = st.node_name))).map (fun nd => nd.fields)) := by
  show ((st.scene.nodes ++ l).find? (fun nd => decide (nd.name = st.node_name))).map
      (fun nd => nd.fields) = _
  rw [List.find?_append]
  unfold getFields findNode
  cases st.scene.nodes.find? (fun nd => decide (nd.name = st.node_name)) with
  | none => rfl
  | some nd => rfl

theorem optionSomeOr {α : Type} (a : α) (b : Option α) : (some a).or b = some a := rfl

theorem getFields_if_setStringAttr (c : Prop) [inst : Decidable c] (st : State)
    (node : NodeName) (a v : String) :
    getFields (if c then { st with scene := setStringAttr st.scene node a v } else st)
      = getFields st := by
  by_cases hc : c
  · rw [if_pos hc]
    exact getFields_scene_setStringAttr st node a v
  · rw [if_neg hc]

theorem ifThrowOk {c : Prop} [Decidable c] {e : MopError} {α : Type}
    {b : Except MopError α} {r : α}
    (h : (if c then Except.error e else b) = Except.ok r) : b = Except.ok r := by
  by_cases hc : c
  · rw [if_pos hc] at h
    exact Except.noConfusion h
  · rwa [if_neg hc] at h

/-- C4 (amended): `add_node`, `_add_deform_joint` and
`_add_placement_locator` preserve the containment of `deform_joints`,
`placement_locators` and `controllers` in `owned_nodes` (each appends the
created node to `owned_nodes`, and the wrappers also append it to their own
list); `add_control`, however, appends the controller to `controllers`
without adding it to `owned_nodes`, so the claimed invariant is not
maintained across every public operation. -/
theorem ownership_containment_corrected (st : State) (bk : SceneNode)
    (node_type : String) (role : Option String) (oid : Option Nat)
    (desc : Option String) (par : Option NodeName)
    (dag : NodeName) (shape : String)
    (hbk : findNode st.scene st.node_name = some bk) :
    (∀ st2 nm, add_node st node_type role oid desc par = Except.ok (st2, nm) →
      st2.node_name = st.node_name ∧ ∃ f', getFields st2 = some f'
        ∧ f'.owned_nodes = bk.fields.owned_nodes ++ [nm]
        ∧ f'.deform_joints = bk.fields.deform_joints
        ∧ f'.placement_locators = bk.fields.placement_locators
        ∧ f'.controllers = bk.fields.controllers
        ∧ (ownershipInv bk.fields = true → ownershipInv f' = true))
    ∧ (∀ st2 j, addDeformJoint st par oid desc = Except.ok (st2, j) →
      st2.node_name = st.node_name ∧ ∃ f', getFields st2 = some f'
        ∧ f'.deform_joints = bk.fields.deform_joints ++ [j]
        ∧ f'.owned_nodes = bk.fields.owned_nodes ++ [j]
        ∧ f'.placement_locators = bk.fields.placement_locators
        ∧ f'.controllers = bk.fields.controllers
        ∧ (ownershipInv bk.fields = true → ownershipInv f' = true))
    ∧ (∀ st2 loc, addPlacementLocator st desc oid par = Except.ok (st2, loc) →
      st2.node_name = st.node_name ∧ ∃ f', getFields st2 = some f'
        ∧ f'.placement_locators = bk.fields.placement_locators ++ [loc]
        ∧ f'.owned_nodes = bk.fields.owned_nodes ++ [loc]
        ∧ f'.deform_joints = bk.fields.deform_joints
        ∧ f'.controllers = bk.fields.controllers
        ∧ (ownershipInv bk.fields = true → ownershipInv f' = true))
    ∧ (∀ st2 ctl buf, addControl st dag oid desc shape = Except.ok (st2, ctl, buf) →
      ∃ f', getFields st2 = some f'
        ∧ f'.controllers = bk.fields.controllers ++ [ctl]
        ∧ f'.owned_nodes = bk.fields.owned_nodes
        ∧ f'.deform_joints = bk.fields.deform_joints
        ∧ f'.placement_locators = bk.fields.placement_locators
        ∧ (¬ ctl ∈ bk.fields.owned_nodes → ¬ ownershipInv f' = true)) := by
  have hgf : getFields st = some bk.fields := getFields_of_findNode hbk
  refine ⟨?_, ?_, ?_, ?_⟩
  · intro st2 nm h
    rw [add_node_eq st bk node_type role oid desc par hbk] at h
    have hv := ifExceptOk h
    obtain ⟨hst2, hnm⟩ := (Prod.mk.injEq _ _ _ _).mp hv
    subst hst2
    subst hnm
    have hA : getFields (setFieldsF { st with scene := { st.scene with nodes := st.scene.nodes ++ [newOwnedNode (name_from_metadata ⟨bk.fields.name, bk.fields.side, addNodeRole node_type role, desc, oid⟩) node_type par st.node_name] } } (fun g => { g with owned_nodes := g.owned_nodes ++ [name_from_metadata ⟨bk.fields.name, bk.fields.side, addNodeRole node_type role, desc, oid⟩] }))
        = some { bk.fields with owned_nodes := bk.fields.owned_nodes ++ [name_from_metadata ⟨bk.fields.name, bk.fields.side, addNodeRole node_type role, desc, oid⟩] } := by
      rw [getFields_setFieldsF, getFields_scene_append st _ hgf]
      rfl
    exact ⟨rfl, _, hA, rfl, rfl, rfl, rfl,
      fun hinv => ownershipInv_extend_owned bk.fields _ hinv⟩
  · intro st2 j h
    unfold addDeformJoint at h
    rw [hgf, req_some, Except_ok_bind] at h
    obtain ⟨p, hp, hrest⟩ := exceptBindOk h
    rw [add_node_eq st bk "joint" (some "deform") _ desc none hbk] at hp
    have hv := ifExceptOk hp
    obtain ⟨pst, pj⟩ := p
    obtain ⟨hpst, hpj⟩ := (Prod.mk.injEq _ _ _ _).mp hv
    obtain ⟨hst2, hjj⟩ := (Prod.mk.injEq _ _ _ _).mp (Except.ok.inj hrest)
    rw [← hst2, ← hjj, ← hpst, ← hpj]
    refine ⟨rfl, ?_⟩
    rw [getFields_setFieldsF, getFields_zeroJointTransforms, getFields_setParent,
      getFields_setFieldsF, getFields_scene_append_eq, hgf]
    simp only [optionSomeOr, Option.map_some']
    refine ⟨_, rfl, rfl, rfl, rfl, rfl, fun hinv => ?_⟩
    exact ownershipInv_extend_dj bk.fields _ hinv
  · intro st2 loc h
    unfold addPlacementLocator at h
    obtain ⟨p, hp, hrest⟩ := exceptBindOk h
    rw [add_node_eq st bk "locator" (some "placement") oid desc none hbk] at hp
    have hv := ifExceptOk hp
    obtain ⟨pst, ploc⟩ := p
    obtain ⟨hpst, hploc⟩ := (Prod.mk.injEq _ _ _ _).mp hv
    obtain ⟨f2, hf2, hrest2⟩ := exceptBindOk hrest
    obtain ⟨p2, hp2, hrest3⟩ := exceptBindOk hrest2
    obtain ⟨hst2, hll⟩ := (Prod.mk.injEq _ _ _ _).mp (Except.ok.inj hrest3)
    rw [← hst2, ← hll, ← hpst, ← hploc]
    refine ⟨rfl, ?_⟩
    rw [getFields_setFieldsF, getFields_zeroLocatorTransforms, getFields_setParent,
      getFields_setFieldsF, getFields_scene_append_eq, hgf]
    simp only [optionSomeOr, Option.map_some']
    refine ⟨_, rfl, rfl, rfl, rfl, rfl, fun hinv => ?_⟩
    exact ownershipInv_extend_pl bk.fields _ hinv
  · intro st2 ctl buf h
    unfold addControl at h
    obtain ⟨m0, hm0, h⟩ := exceptBindOk h
    replace h := ifThrowOk h
    rw [hgf, req_some, Except_ok_bind] at h
    obtain ⟨wm, hwm, h⟩ := exceptBindOk h
    obtain ⟨hst2, hrest2⟩ := (Prod.mk.injEq _ _ _ _).mp (Except.ok.inj h)
    obtain ⟨hctl, hbuf⟩ := (Prod.mk.injEq _ _ _ _).mp hrest2
    rw [← hst2, ← hctl]
    rw [getFields_setFieldsF, getFields_setParent, getFields_scene_append_eq,
      getFields_scene_setWM, getFields_if_setStringAttr,
      getFields_createPersistentAttribute, getFields_createPersistentAttribute,
      getFields_createPersistentAttribute, getFields_scene_append_eq, hgf]
    simp only [optionSomeOr, Option.map_some']
    refine ⟨_, rfl, rfl, rfl, rfl, rfl, fun hno => ?_⟩
    exact ownershipInv_break_ctl bk.fields _ hno

theorem ownership_containment_corrected_witness :
    (∀ st2 nm, add_node exC4St "joint" (some "deform") (some 1) none none
        = Except.ok (st2, nm) →
      st2.node_name = exC4St.node_name ∧ ∃ f', getFields st2 = some f'
        ∧ f'.owned_nodes = exC4Bk.fields.owned_nodes ++ [nm]
        ∧ f'.deform_joints = exC4Bk.fields.deform_joints
        ∧ f'.placement_locators = exC4Bk.fields.placement_locators
        ∧ f'.controllers = exC4Bk.fields.controllers
        ∧ (ownershipInv exC4Bk.fields = true → ownershipInv f' = true))
    ∧ (∀ st2 j, addDeformJoint exC4St none (some 1) none = Except.ok (st2, j) →
      st2.node_name = exC4St.node_name ∧ ∃ f', getFields st2 = some f'
        ∧ f'.deform_joints = exC4Bk.fields.deform_joints ++ [j]
        ∧ f'.owned_nodes = exC4Bk.fields.owned_nodes ++ [j]
        ∧ f'.placement_locators = exC4Bk.fields.placement_locators
        ∧ f'.controllers = exC4Bk.fields.controllers
        ∧ (ownershipInv exC4Bk.fields = true → ownershipInv f' = true))
    ∧ (∀ st2 loc, addPlacementLocator exC4St none (some 1) none = Except.ok (st2, loc) →
      st2.node_name = exC4St.node_name ∧ ∃ f', getFields st2 = some f'
        ∧ f'.placement_locators = exC4Bk.fields.placement_locators ++ [loc]
        ∧ f'.owned_nodes = exC4Bk.fields.owned_nodes ++ [loc]
        ∧ f'.deform_joints = exC4Bk.fields.deform_joints
        ∧ f'.controllers = exC4Bk.fields.controllers
        ∧ (ownershipInv exC4Bk.fields = true → ownershipInv f' = true))
    ∧ (∀ st2 ctl buf, addControl exC4St exC4J (some 1) none "circle"
        = Except.ok (st2, ctl, buf) →
      ∃ f', getFields st2 = some f'
        ∧ f'.controllers = exC4Bk.fields.controllers ++ [ctl]
        ∧ f'.owned_nodes = exC4Bk.fields.owned_nodes
        ∧ f'.deform_joints = exC4Bk.fields.deform_joints
        ∧ f'.placement_locators = exC4Bk.fields.placement_locators
        ∧ (¬ ctl ∈ exC4Bk.fields.owned_nodes → ¬ ownershipInv f' = true)) :=
  ownership_containment_corrected exC4St exC4Bk "joint" (some "deform") (some 1)
    none none exC4J "circle" (by decide)

/-- C4 counterexample: on a freshly attached module (all lists empty, so
the claimed invariant holds), one `add_control` call yields a state whose
backing fields list the controller in `controllers` but not in
`owned_nodes` — the claimed invariant does not survive the call. -/
theorem controller_ownership_counterexample :
    ∃ st' buf, addControl exC4St exC4J none none "circle"
        = Except.ok (st', exC4Ctl, buf)
      ∧ ∃ f', getFields st' = some f'
        ∧ exC4Ctl ∈ f'.controllers
        ∧ ¬ exC4Ctl ∈ f'.owned_nodes
        ∧ ownershipInv exC4Bk.fields = true
        ∧ ¬ ownershipInv f' = true := by
  refine ⟨_, _, rfl, _, rfl, by decide, by decide, by decide, by decide⟩
